import Mathlib

/-!
Verification of the zendesk-db-connector repository (zdbcon): a shallow
embedding in Lean 4 of the schema-adaptive upsert pipeline — the dictionary
flattener (flatten_dictionary.py, duplicated as a static method of Zendesk in
zp.py and, with a broken free-name reference, in zdbc.py), the type mapper
(Zendesk.map_type), the SQL-literal encoder (Zendesk.parse_value), the
resilient executor (Zendesk.execute, Zendesk.commit), the schema-adaptive sink
(Zendesk.append_obj, Zendesk.get_table_ids, Zendesk.create_table,
ZenTicket.append_ticket) and the chat extractor (ZenChat.format_chat_history).

Python values are modelled by PyVal; Python dictionaries by insertion-ordered
association lists with unique keys (as Python guarantees); raised exceptions by
Except PyErr; the pyodbc connection by an explicit state record threaded
through the functions.  External collaborators (the pandas dtype engine, the
dateutil date parser, the Zenpy API client) are modelled as parameters or small
oracles, exactly where the source delegates to them.  All definitions are
structurally recursive, so every concrete run reduces in the kernel.
-/

/-- A Python exception, identified by its class
    (for pyodbc.Error the SQLSTATE code carried in args[0] is kept). -/
inductive PyErr where
  | dbError (code : String)
  | keyError
  | typeError
  | nameError
  | attributeError
  | valueError
deriving Repr, DecidableEq

/-- A Python value as it appears in the JSON-shaped records the pipeline
    handles: None, booleans, integers, strings, lists, and dictionaries.
    Dictionaries are insertion-ordered association lists whose keys are
    arbitrary (hashable) values — the flattener produces dictionaries keyed
    by discriminator values, not only by strings. -/
inductive PyVal where
  | none
  | bool (b : Bool)
  | int (n : Int)
  | str (s : String)
  | list (xs : List PyVal)
  | dict (kvs : List (PyVal × PyVal))
deriving Repr

namespace PyVal

mutual

/-- Structural equality on Python values (Python ==, restricted to the value
    shapes above, where it agrees with structural equality). -/
def beq : PyVal → PyVal → Bool
  | .none, .none => true
  | .bool a, .bool b => a == b
  | .int a, .int b => a == b
  | .str a, .str b => a == b
  | .list xs, .list ys => beqL xs ys
  | .dict xs, .dict ys => beqP xs ys
  | _, _ => false

def beqL : List PyVal → List PyVal → Bool
  | [], [] => true
  | x :: xs, y :: ys => beq x y && beqL xs ys
  | _, _ => false

def beqP : List (PyVal × PyVal) → List (PyVal × PyVal) → Bool
  | [], [] => true
  | (k, v) :: xs, (k2, v2) :: ys => beq k k2 && beq v v2 && beqP xs ys
  | _, _ => false

end

mutual

theorem eq_of_beq : ∀ a b : PyVal, beq a b = true → a = b
  | .none, .none, _ => rfl
  | .bool a, .bool b, h => by simp only [beq, beq_iff_eq] at h; rw [h]
  | .int a, .int b, h => by simp only [beq, beq_iff_eq] at h; rw [h]
  | .str a, .str b, h => by simp only [beq, beq_iff_eq] at h; rw [h]
  | .list xs, .list ys, h => by rw [eqL_of_beqL xs ys (by simpa [beq] using h)]
  | .dict xs, .dict ys, h => by rw [eqP_of_beqP xs ys (by simpa [beq] using h)]
  | .none, .bool _, h | .none, .int _, h | .none, .str _, h
  | .none, .list _, h | .none, .dict _, h
  | .bool _, .none, h | .bool _, .int _, h | .bool _, .str _, h
  | .bool _, .list _, h | .bool _, .dict _, h
  | .int _, .none, h | .int _, .bool _, h | .int _, .str _, h
  | .int _, .list _, h | .int _, .dict _, h
  | .str _, .none, h | .str _, .bool _, h | .str _, .int _, h
  | .str _, .list _, h | .str _, .dict _, h
  | .list _, .none, h | .list _, .bool _, h | .list _, .int _, h
  | .list _, .str _, h | .list _, .dict _, h
  | .dict _, .none, h | .dict _, .bool _, h | .dict _, .int _, h
  | .dict _, .str _, h | .dict _, .list _, h => by simp [beq] at h

theorem eqL_of_beqL : ∀ xs ys : List PyVal, beqL xs ys = true → xs = ys
  | [], [], _ => rfl
  | x :: xs, y :: ys, h => by
      simp only [beqL, Bool.and_eq_true] at h
      rw [eq_of_beq x y h.1, eqL_of_beqL xs ys h.2]
  | [], _ :: _, h | _ :: _, [], h => by simp [beqL] at h

theorem eqP_of_beqP : ∀ xs ys : List (PyVal × PyVal), beqP xs ys = true → xs = ys
  | [], [], _ => rfl
  | (k, v) :: xs, (k2, v2) :: ys, h => by
      simp only [beqP, Bool.and_eq_true] at h
      rw [eq_of_beq k k2 h.1.1, eq_of_beq v v2 h.1.2, eqP_of_beqP xs ys h.2]
  | [], _ :: _, h | _ :: _, [], h => by simp [beqP] at h

end

mutual

theorem beq_refl : ∀ a : PyVal, beq a a = true
  | .none => rfl
  | .bool a => by simp [beq]
  | .int a => by simp [beq]
  | .str a => by simp [beq]
  | .list xs => by simpa [beq] using beqL_refl xs
  | .dict xs => by simpa [beq] using beqP_refl xs

theorem beqL_refl : ∀ xs : List PyVal, beqL xs xs = true
  | [] => rfl
  | x :: xs => by simp [beqL, beq_refl x, beqL_refl xs]

theorem beqP_refl : ∀ xs : List (PyVal × PyVal), beqP xs xs = true
  | [] => rfl
  | (k, v) :: xs => by simp [beqP, beq_refl k, beq_refl v, beqP_refl xs]

end

instance : BEq PyVal := ⟨beq⟩

instance : LawfulBEq PyVal where
  eq_of_beq := fun {a b} h => eq_of_beq a b h
  rfl := fun {a} => beq_refl a

instance instDecEq : DecidableEq PyVal := fun a b =>
  decidable_of_iff (beq a b = true) ⟨eq_of_beq a b, fun h => h ▸ beq_refl a⟩

/-- Python dictionary indexing and membership support: the entry whose key
    equals k (keys are unique in dictionaries produced by Python). -/
def dGet (kvs : List (PyVal × PyVal)) (k : PyVal) : Option PyVal :=
  (kvs.find? (fun p => p.1 == k)).map (fun p => p.2)

/-- Python membership test, k in d. -/
def dHas (kvs : List (PyVal × PyVal)) (k : PyVal) : Bool :=
  kvs.any (fun p => p.1 == k)

/-- Python dict-comprehension insertion: assigning to an existing key
    overwrites its value in place, a new key is appended at the end
    (insertion order preserved, last write wins). -/
def dIns (kvs : List (PyVal × PyVal)) (k v : PyVal) : List (PyVal × PyVal) :=
  if dHas kvs k then kvs.map (fun p => if p.1 == k then (k, v) else p)
  else kvs ++ [(k, v)]

/-- Python d.pop(k) (single-argument form): removes the entry with key k,
    KeyError when k is absent. -/
def dPop (kvs : List (PyVal × PyVal)) (k : PyVal) :
    Except PyErr (List (PyVal × PyVal)) :=
  if dHas kvs k then .ok (kvs.filter (fun p => !(p.1 == k)))
  else .error .keyError

/-- Python str(v) for the scalar shapes the pipeline stores
    (the container cases never matter for the claims below). -/
def pyStr : PyVal → String
  | .none => "None"
  | .bool b => if b then "True" else "False"
  | .int n => toString n
  | .str s => s
  | .list _ => "<list>"
  | .dict _ => "<dict>"

/-- Python int(v): booleans map to 0/1, integers are the identity; the other
    value shapes the pipeline could feed to it raise. -/
def pyInt : PyVal → Except PyErr Int
  | .bool b => .ok (if b then 1 else 0)
  | .int n => .ok n
  | _ => .error .valueError

end PyVal

/-- Python substring containment, sub in t, as character-list infix. -/
def strContains (t sub : String) : Bool :=
  decide (sub.data <:+: t.data)

/-- The three-section type-mapping configuration handed to the Zendesk
    constructor (sections direct, except and date_fields), with the section
    names used for the local variables of Zendesk.map_type
    (direct_map, except_map, date_map). -/
structure TypeMapping where
  direct_map : List (String × String)
  except_map : List (String × String)
  date_map : List String
deriving Repr, DecidableEq

namespace TypeMapping

def directLookup (m : TypeMapping) (t : String) : Option String :=
  (m.direct_map.find? (fun p => p.1 == t)).map (fun p => p.2)

def exceptLookup (m : TypeMapping) (c : String) : Option String :=
  (m.except_map.find? (fun p => p.1 == c)).map (fun p => p.2)

def directHas (m : TypeMapping) (t : String) : Bool :=
  m.direct_map.any (fun p => p.1 == t)

def exceptHas (m : TypeMapping) (c : String) : Bool :=
  m.except_map.any (fun p => p.1 == c)

end TypeMapping

namespace Zendesk

/-- Zendesk.map_type (src/zdbcon/zp.py:299-316): maps a column name and its
    pandas dtype name to a SQL type.  The source checks, in this order: the
    date-field list or the 3-character suffix test (column[-3:] == the
    underscore-at suffix), then the direct section keyed by the pandas type,
    then the except section keyed by the column name, and finally falls
    through to the raw pandas type name. -/
def map_type (m : TypeMapping) (column : String) (pd_type : String) : String :=
  if column ∈ m.date_map ∨ column.takeRight 3 = "_at" then "datetime"
  else
    match m.directLookup pd_type with
    | some t => t
    | Option.none =>
      match m.exceptLookup column with
      | some t => t
      | Option.none => pd_type

/-- The example type_mapping documented in the Zendesk constructor
    (src/zdbcon/zp.py:30-66), used below as a concrete configuration. -/
def exampleMapping : TypeMapping where
  direct_map := [("int64", "bigint"), ("object", "varchar(max)"),
    ("bool", "bit"), ("text", "varchar(max)"), ("integer", "bigint"),
    ("tagger", "varchar(max)"), ("checkbox", "bit"), ("date", "datetime"),
    ("float64", "decimal")]
  except_map := [("25195420522772", "int"), ("28904987445396", "int"),
    ("29276570401556", "int"), ("29276198281492", "int"),
    ("29276105521044", "int"), ("29276100335508", "int"),
    ("20947766232980", "int"), ("20947745134356", "int"),
    ("20789097773204", "int"), ("28083771248020", "varchar(max)"),
    ("metadata.system.latitude", "decimal(10,6)"),
    ("metadata.system.longitude", "decimal(10,6)")]
  date_map := ["created_at", "due_at", "updated_at",
    "content.original_message.source.original_message_timestamp",
    "content.original_message.received"]

/-- The composition Zendesk.iso_date_to_datetime(v).strftime(...) as used by
    parse_value (src/zdbcon/zp.py:358-365 and 425-430): dateutil parsing plus
    local-zone conversion and reformatting is an external collaborator,
    modelled as an oracle returning the formatted date string, or none when
    any exception is raised (unparseable input, non-string input, ...). -/
abbrev DateOracle : Type := PyVal → Option String

/-- The single-quote and double-quote characters, named to keep quote
    characters out of the literals below. -/
def quoteChar : Char := Char.ofNat 39

def doubleQuoteChar : Char := Char.ofNat 34

def quoteStr : String := String.mk [quoteChar]

/-- Python str.replace applied with a single-quote pattern and a double-quote
    replacement: both are single characters, so the call is a character map. -/
def replaceQuotes (s : String) : String :=
  String.mk (s.data.map (fun c => if c = quoteChar then doubleQuoteChar else c))

/-- Zendesk.parse_value (src/zdbcon/zp.py:410-435): encodes one typed field
    descriptor (column, value, type) as a SQL literal.  In source order: None
    or the empty string map to the NULL literal; a type in the datetime/date
    set formats the date (quoted), with the bare except clause mapping any
    parse failure to NULL; type bit yields str(int(v)); a type name containing
    the substring int yields the value unquoted; everything else becomes a
    quoted N-string with every single quote replaced by a double quote. -/
def parse_value (fmt : DateOracle) (c : String) (v : PyVal) (t : String) :
    Except PyErr (String × String) :=
  if v = .none ∨ v = .str "" then .ok (c, "NULL")
  else if t = "datetime" ∨ t = "date" then
    match fmt v with
    | some d => .ok (c, quoteStr ++ d ++ quoteStr)
    | Option.none => .ok (c, "NULL")
  else if t = "bit" then
    match v.pyInt with
    | .ok n => .ok (c, toString n)
    | .error e => .error e
  else if strContains t "int" then .ok (c, v.pyStr)
  else .ok (c, "N" ++ quoteStr ++ replaceQuotes v.pyStr ++ quoteStr)

end Zendesk

/-- The key argument of the flattener: Python type str or list[str]. -/
inductive KeyArg where
  | single (k : String)
  | multi (ks : List String)
deriving Repr, DecidableEq

/-- The local helper choose_key of flatten_dict_list
    (src/zdbcon/flatten_dictionary.py:30-33, identical in zp.py:135-138 and
    zdbc.py:241-244): a plain str key is returned unchanged; for a key list,
    the first candidate present in the dictionary is returned; when no
    candidate is present the function falls through and returns None. -/
def choose_key (key : KeyArg) (d : List (PyVal × PyVal)) : Option String :=
  match key with
  | .single k => some k
  | .multi ks => ks.find? (fun k => PyVal.dHas d (.str k))

/-- The Python value actually used to index after choose_key: the chosen key
    string, or None when choose_key fell through. -/
def ckVal : Option String → PyVal
  | some k => .str k
  | Option.none => .none

/-- The local helper wrong_type of flatten_dict_list
    (flatten_dictionary.py:22): true for anything that is neither a list nor
    a dict. -/
def wrong_type : PyVal → Bool
  | .list _ => false
  | .dict _ => false
  | _ => true

/-- The Python dict built by a comprehension, from its key/value pairs in
    generation order: duplicates collapse, last write wins. -/
def pyDictOf (pairs : List (PyVal × PyVal)) : List (PyVal × PyVal) :=
  pairs.foldl (fun acc p => PyVal.dIns acc p.1 p.2) []

/-- The mutation loop at the end of flatten_dict_list
    (flatten_dictionary.py:37-38): for each value v of the freshly built
    dictionary, v.pop(choose_key(v)).  Every such v is itself a dictionary
    (it came out of the recursive flattening of a dict element); a non-dict
    would raise AttributeError on .pop. -/
def popAll (key : KeyArg) : List (PyVal × PyVal) →
    Except PyErr (List (PyVal × PyVal))
  | [] => .ok []
  | (k, v) :: rest =>
    match v with
    | .dict kvs =>
      match PyVal.dPop kvs (ckVal (choose_key key kvs)) with
      | .ok kvs2 =>
        match popAll key rest with
        | .ok rest2 => .ok ((k, .dict kvs2) :: rest2)
        | .error e => .error e
      | .error e => .error e
    | _ => .error .attributeError

mutual

/-- The comprehension of flatten_dict
    (src/zdbcon/flatten_dictionary.py:13, identical to the static method
    Zendesk.flatten_dict in zp.py:117), one item at a time in insertion
    order; the first exception raised propagates.  flatten_dict itself is the
    wrapper defined right after this block. -/
def flattenPairs : List (PyVal × PyVal) → KeyArg →
    Except PyErr (List (PyVal × PyVal))
  | [], _ => .ok []
  | (k, v) :: rest, key =>
    match flatten_dict_list v key with
    | .error e => .error e
    | .ok v2 =>
      match flattenPairs rest key with
      | .error e => .error e
      | .ok rest2 => .ok ((k, v2) :: rest2)

/-- flatten_dict_list (src/zdbcon/flatten_dictionary.py:15-40, identical to
    Zendesk.flatten_dict_list in zp.py:119-145).  In source order: scalars
    pass through, as does a non-empty list whose first element is a scalar; a
    dict recurses through flatten_dict (written here as its body
    flattenPairs); what remains is a list (empty, or with a list/dict head),
    turned into a dict keyed per element by d[choose_key(d)], whose values
    are the recursively flattened elements and then have their chosen key
    popped. -/
def flatten_dict_list : PyVal → KeyArg → Except PyErr PyVal
  | .dict kvs, key =>
    match flattenPairs kvs key with
    | .ok d2 => .ok (.dict d2)
    | .error e => .error e
  | .list [], _ => .ok (.dict [])
  | .list (x :: xs), key =>
    if wrong_type x then .ok (.list (x :: xs))
    else
      match flattenElems (x :: xs) key with
      | .error e => .error e
      | .ok pairs =>
        match popAll key (pyDictOf pairs) with
        | .error e => .error e
        | .ok final => .ok (.dict final)
  | v, _ => .ok v

/-- The keyed comprehension inside flatten_dict_list
    (flatten_dictionary.py:35), element by element: for each element d the
    key expression d[choose_key(d)] is evaluated first (KeyError when absent,
    TypeError when d is not a dictionary at all), then the recursively
    flattened element becomes the value.  The recursive call
    flatten_dict_list(d, key) is written with the dict branch of
    flatten_dict_list taken, d being a dict. -/
def flattenElems : List PyVal → KeyArg → Except PyErr (List (PyVal × PyVal))
  | [], _ => .ok []
  | d :: rest, key =>
    match d with
    | .dict kvs =>
      match PyVal.dGet kvs (ckVal (choose_key key kvs)) with
      | Option.none => .error .keyError
      | some kv =>
        match flattenPairs kvs key with
        | .error e => .error e
        | .ok fv =>
          match flattenElems rest key with
          | .error e => .error e
          | .ok rest2 => .ok ((kv, .dict fv) :: rest2)
    | _ => .error .typeError

end

/-- flatten_dict (src/zdbcon/flatten_dictionary.py:2-13, identical to the
    static method Zendesk.flatten_dict in zp.py:105-117): a dict comprehension
    mapping every value through flatten_dict_list, keys unchanged. -/
def flatten_dict (d : List (PyVal × PyVal)) (key : KeyArg) :
    Except PyErr (List (PyVal × PyVal)) :=
  flattenPairs d key

namespace ZDBC

mutual

/-- The comprehension of ZDBC.flatten_dict (src/zdbcon/zdbc.py:223), item by
    item in insertion order; the first exception raised propagates. -/
def flattenPairs : List (PyVal × PyVal) → KeyArg →
    Except PyErr (List (PyVal × PyVal))
  | [], _ => .ok []
  | (k, v) :: rest, key =>
    match flatten_dict_list v key with
    | .error e => .error e
    | .ok v2 =>
      match flattenPairs rest key with
      | .error e => .error e
      | .ok rest2 => .ok ((k, v2) :: rest2)

/-- ZDBC.flatten_dict_list (src/zdbcon/zdbc.py:225-251).  Identical to the
    flatten_dictionary.py version except for its dict branch: the source
    there reads return flatten_dict(dlist, key) with the bare name
    flatten_dict, and zdbc.py defines no module-level flatten_dict (the only
    flatten_dict in that module is the static method ZDBC.flatten_dict), so
    executing that branch raises NameError. -/
def flatten_dict_list : PyVal → KeyArg → Except PyErr PyVal
  | .dict _, _ => .error .nameError
  | .list [], _ => .ok (.dict [])
  | .list (x :: xs), key =>
    if wrong_type x then .ok (.list (x :: xs))
    else
      match flattenElems (x :: xs) key with
      | .error e => .error e
      | .ok pairs =>
        match popAll key (pyDictOf pairs) with
        | .error e => .error e
        | .ok final => .ok (.dict final)
  | v, _ => .ok v

/-- The keyed comprehension inside ZDBC.flatten_dict_list (zdbc.py:246): for
    each element d, the key expression d[choose_key(d)] is evaluated first,
    then ZDBC.flatten_dict_list(d, key) — which, d being a dict, raises
    NameError through the broken dict branch. -/
def flattenElems : List PyVal → KeyArg → Except PyErr (List (PyVal × PyVal))
  | [], _ => .ok []
  | d :: rest, key =>
    match d with
    | .dict kvs =>
      match PyVal.dGet kvs (ckVal (choose_key key kvs)) with
      | Option.none => .error .keyError
      | some kv =>
        match flatten_dict_list (.dict kvs) key with
        | .error e => .error e
        | .ok fv =>
          match flattenElems rest key with
          | .error e => .error e
          | .ok rest2 => .ok ((kv, fv) :: rest2)
    | _ => .error .typeError

end

/-- ZDBC.flatten_dict (src/zdbcon/zdbc.py:211-223): a dict comprehension
    mapping every value through ZDBC.flatten_dict_list, keys unchanged. -/
def flatten_dict (d : List (PyVal × PyVal)) (key : KeyArg) :
    Except PyErr (List (PyVal × PyVal)) :=
  flattenPairs d key

/-- Python d.pop(k, None): remove the entry with key k when present, no
    exception otherwise (used by ZDBC.dict_from_audit). -/
def popDefault (kvs : List (PyVal × PyVal)) (k : PyVal) :
    List (PyVal × PyVal) :=
  kvs.filter (fun p => !(p.1 == k))

/-- ZDBC.dict_from_audit (src/zdbcon/zdbc.py:94-105): pops the events key,
    prunes metadata.decoration.links when present, and hands the remaining
    dictionary (whose metadata field is the nested metadata mapping of the
    audit) to ZDBC.flatten_dict keyed by [id, type].  The audit.to_dict()
    step is external (Zenpy); its result is the dictionary taken here as
    input.  Accessing d[metadata] raises KeyError when absent; the membership
    test decoration in d[metadata] requires the metadata value to be a
    container (TypeError otherwise, as in Python for non-container values). -/
def dict_from_audit (d : List (PyVal × PyVal)) :
    Except PyErr (List (PyVal × PyVal)) :=
  let d1 := popDefault d (.str "events")
  match PyVal.dGet d1 (.str "metadata") with
  | Option.none => .error .keyError
  | some md =>
    match md with
    | .dict mkvs =>
      match PyVal.dGet mkvs (.str "decoration") with
      | some (.dict dec) =>
        let mkvs2 := mkvs.map (fun p =>
          if p.1 == .str "decoration" then
            (p.1, PyVal.dict (popDefault dec (.str "links"))) else p)
        let d2 := d1.map (fun p =>
          if p.1 == .str "metadata" then (p.1, PyVal.dict mkvs2) else p)
        flatten_dict d2 (.multi ["id", "type"])
      | some _ => .error .attributeError
      | Option.none =>
        flatten_dict d1 (.multi ["id", "type"])
    | _ => .error .typeError

end ZDBC

/-- A pyodbc error signal: the SQLSTATE code in args[0]
    (42S02 = base table or view not found). -/
abbrev DBErr : Type := String

namespace Zendesk

/-- Connection-level counters for the resilient-executor claims: how many
    times Connection.execute and Connection.commit ran, and how many full
    reconnects (Zendesk.reconnect, zp.py:81-85: connect_db plus
    connect_zendesk) completed. -/
structure ConnState where
  attempts : Nat
  commits : Nat
  reconnects : Nat
deriving Repr, DecidableEq

/-- Zendesk.reconnect (src/zdbcon/zp.py:81-85): one full reconnect to the
    database and to the Zendesk API. -/
def reconnect (s : ConnState) : ConnState :=
  { s with reconnects := s.reconnects + 1 }

/-- Zendesk.execute (src/zdbcon/zp.py:270-297), generic over the underlying
    connection: db s models self.db.execute(sql_query) in state s, returning
    the raised error or the query result, together with the successor state
    (the state advances even on failure — the attempt happened).  Source
    structure: at tries == 0 the statement runs outside any try, so its error
    propagates; otherwise a db.Error triggers a recursive retry with
    tries - 1, and any exception escaping that retry chain is caught by the
    bare except, which logs and returns None.  The body never calls
    reconnect.  The is_first flag only controls verbose logging. -/
def execute {σ ρ : Type} (db : σ → Except DBErr ρ × σ) :
    Nat → Bool → σ → Except DBErr (Option ρ) × σ
  | 0, _, s =>
    match db s with
    | (.ok r, s1) => (.ok (some r), s1)
    | (.error e, s1) => (.error e, s1)
  | t + 1, _, s =>
    match db s with
    | (.ok r, s1) => (.ok (some r), s1)
    | (.error _, s1) =>
      match execute db t false s1 with
      | (.ok x, s2) => (.ok x, s2)
      | (.error _, s2) => (.ok Option.none, s2)

/-- Zendesk.commit (src/zdbcon/zp.py:250-268), run for fuel steps.
    commitOk n tells whether the n-th Connection.commit call succeeds;
    reconnectOk n whether the n-th reconnect attempt completes.  The source:
    try self.db.commit(); on db.Error try { self.reconnect();
    self.commit(tries - 1) } and swallow any failure of that inner block.
    The tries argument is received and decremented but never tested, so the
    recursion has no base case of its own; the fuel argument is the
    observation bound of this model (first component: final counters; second:
    whether the call chain actually returned within the given fuel). -/
def commit (commitOk : Nat → Bool) (reconnectOk : Nat → Bool) :
    Nat → Int → ConnState → ConnState × Bool
  | 0, _, s => (s, false)
  | fuel + 1, tries, s =>
    if commitOk s.commits then
      ({ s with commits := s.commits + 1 }, true)
    else
      let s1 : ConnState := { s with commits := s.commits + 1 }
      if reconnectOk s1.reconnects then
        commit commitOk reconnectOk fuel (tries - 1) (reconnect s1)
      else (s1, true)

/-- A database whose first failures calls of the statement raise dberr and
    whose later calls succeed with res: the oracle for the executor claims. -/
def failFirst (failures : Nat) (res : String) (dberr : DBErr)
    (s : ConnState) : Except DBErr String × ConnState :=
  (if s.attempts < failures then .error dberr else .ok res,
   { s with attempts := s.attempts + 1 })

end Zendesk

/-- The SQL statements the sink issues against its single destination table
    (self.table is fixed per connector instance, so the table name is left
    implicit; the literal rendering of values is covered by parse_value). -/
inductive SQLStmt where
  | selectIds
  | selectColumns
  | insertRow (id : PyVal) (cols : List String)
  | updateRow (id : PyVal) (cols : List String)
  | createTable (cols : List (String × String))
  | addColumn (col : String) (ty : String)
  | commitTx
deriving Repr, DecidableEq

/-- The result a cursor hands back for the statements above. -/
inductive QueryRes where
  | ids (l : List PyVal)
  | cols (l : List String)
  | unit
deriving Repr, DecidableEq

/-- The destination database: whether the table exists, its rows (by id),
    its columns, and the full log of statements the connection received
    (every attempt is logged, also failing ones). -/
structure DBState where
  tableExists : Bool
  rowIds : List PyVal
  cols : List (String × String)
  log : List SQLStmt
deriving Repr, DecidableEq

/-- One Connection.execute round trip: a select on a missing table fails with
    SQLSTATE 42S02; the information_schema.columns query always succeeds (it
    yields no rows for a missing table); inserting or updating requires the
    table and the named columns to exist; create table fails when the table
    is already there; commit always succeeds in this model. -/
def dbExec (q : SQLStmt) (db : DBState) : Except DBErr QueryRes × DBState :=
  let db := { db with log := db.log ++ [q] }
  match q with
  | .selectIds =>
    if db.tableExists then (.ok (.ids db.rowIds), db)
    else (.error "42S02", db)
  | .selectColumns =>
    (.ok (.cols (if db.tableExists then db.cols.map Prod.fst else [])), db)
  | .insertRow id cs =>
    if db.tableExists then
      if cs.all (fun c => (db.cols.map Prod.fst).contains c) then
        (.ok .unit, { db with rowIds := db.rowIds ++ [id] })
      else (.error "207", db)
    else (.error "42S02", db)
  | .updateRow _ cs =>
    if db.tableExists then
      if cs.all (fun c => (db.cols.map Prod.fst).contains c) then
        (.ok .unit, db)
      else (.error "207", db)
    else (.error "42S02", db)
  | .createTable cs =>
    if db.tableExists then (.error "2714", db)
    else (.ok .unit, { db with tableExists := true, cols := cs })
  | .addColumn c ty =>
    if db.tableExists then (.ok .unit, { db with cols := db.cols ++ [(c, ty)] })
    else (.error "42S02", db)
  | .commitTx => (.ok .unit, db)

/-- One element of the Zendesk.type_list output: a dictionary with the keys
    column, value and type. -/
structure Descriptor where
  column : String
  value : PyVal
  type : String
deriving Repr, DecidableEq

namespace Zendesk

/-- The dtype pandas assigns to a single-row column holding the given scalar,
    as observed through str(df.dtypes[key]) in Zendesk.type_list (zp.py:93-99).
    The pandas engine is external; this models its output for the scalar
    shapes a flat row stores. -/
def pd_dtype : PyVal → String
  | .bool _ => "bool"
  | .int _ => "int64"
  | _ => "object"

/-- Zendesk.type_list (src/zdbcon/zp.py:87-103) on an already-flat row:
    pd.json_normalize of a flat dictionary yields one column per field in
    order, and the comprehension keeps the non-None values, typing each
    column through map_type. -/
def type_list (m : TypeMapping) (row : List (String × PyVal)) :
    List Descriptor :=
  row.filterMap (fun p =>
    if p.2 = .none then Option.none
    else some ⟨p.1, p.2, map_type m p.1 (pd_dtype p.2)⟩)

/-- The sink-side instance state: the connection plus the two caches
    (self.id_cache, initially None, and self.table_columns, initially the
    empty set — zp.py:77-79). -/
structure ZState where
  db : DBState
  id_cache : Option (List PyVal)
  table_columns : List String
deriving Repr, DecidableEq

/-- Zendesk.create_table (src/zdbcon/zp.py:367-376): CREATE TABLE through a
    raw cursor (a failure here propagates — there is no retry wrapper),
    followed by cursor.commit and a Zendesk-API reconnect (connect_zendesk,
    outside this state). -/
def create_table (tl : List Descriptor) (z : ZState) : Except PyErr ZState :=
  match dbExec (.createTable (tl.map (fun t => (t.column, t.type)))) z.db with
  | (.ok _, db1) => .ok { z with db := { db1 with log := db1.log ++ [.commitTx] } }
  | (.error e, _) => .error (.dbError e)

/-- ids.fetchall() composed with the set comprehension of get_table_ids
    (zp.py:400): None yields the empty set, a row list yields its ids.  The
    Python set is modelled by the fetched list; only membership is consumed. -/
def fetchIds : Option QueryRes → List PyVal
  | some (.ids l) => l
  | _ => []

/-- Zendesk.get_table_ids (src/zdbcon/zp.py:390-405).  When recache is set or
    the cache is still None: run select [id] through the retrying execute
    (tries = 10); on a normal return rebuild the cache from the result (None
    becomes the empty set, because execute swallows every db.Error after its
    retries); on a raised db.Error, create the table when the code is 42S02.
    In every case the function then returns self.id_cache as it stands —
    which is still None when the cache was never built. -/
def get_table_ids (recache : Bool) (tl : List Descriptor) (z : ZState) :
    Except PyErr (Option (List PyVal) × ZState) :=
  if recache || z.id_cache.isNone then
    match execute (dbExec .selectIds) 10 true z.db with
    | (.ok ids, db1) =>
      .ok (some (fetchIds ids),
           { z with db := db1, id_cache := some (fetchIds ids) })
    | (.error e, db1) =>
      let z1 : ZState := { z with db := db1 }
      if e = "42S02" then
        match create_table tl z1 with
        | .ok z2 => .ok (z2.id_cache, z2)
        | .error e2 => .error e2
      else .ok (z1.id_cache, z1)
  else .ok (z.id_cache, z)

/-- Zendesk.cache_table_columns (src/zdbcon/zp.py:437-443): the
    information_schema.columns query through the retrying execute, then
    fetchall on its result — which raises AttributeError when execute
    returned None. -/
def cache_table_columns (z : ZState) : Except PyErr ZState :=
  match execute (dbExec .selectColumns) 10 true z.db with
  | (.ok (some (.cols cs)), db1) =>
    .ok { z with db := db1, table_columns := cs }
  | (.ok (some _), _) => .error .typeError
  | (.ok Option.none, _) => .error .attributeError
  | (.error e, _) => .error (.dbError e)

/-- Zendesk.get_table_columns (src/zdbcon/zp.py:445-448): rebuild the column
    cache when it is empty, then return it. -/
def get_table_columns (z : ZState) : Except PyErr (List String × ZState) :=
  if z.table_columns.length = 0 then
    match cache_table_columns z with
    | .ok z1 => .ok (z1.table_columns, z1)
    | .error e => .error e
  else .ok (z.table_columns, z)

/-- Zendesk.has_column (src/zdbcon/zp.py:450-451). -/
def has_column (c : String) (z : ZState) : Except PyErr (Bool × ZState) :=
  match get_table_columns z with
  | .ok (cs, z1) => .ok (cs.contains c, z1)
  | .error e => .error e

/-- Zendesk.add_column (src/zdbcon/zp.py:453-455): alter table through the
    retrying execute, then a raw self.db.commit(). -/
def add_column (c ty : String) (z : ZState) : Except PyErr ZState :=
  match execute (dbExec (.addColumn c ty)) 10 true z.db with
  | (.ok _, db1) => .ok { z with db := { db1 with log := db1.log ++ [.commitTx] } }
  | (.error e, _) => .error (.dbError e)

/-- Zendesk.add_columns (src/zdbcon/zp.py:220-230): for every descriptor
    whose column is not yet known, add it and refresh the column cache. -/
def add_columns (tl : List Descriptor) (z : ZState) : Except PyErr ZState :=
  match tl with
  | [] => .ok z
  | t :: rest =>
    match has_column t.column z with
    | .error e => .error e
    | .ok (b, z1) =>
      if b then add_columns rest z1
      else
        match add_column t.column t.type z1 with
        | .error e => .error e
        | .ok z2 =>
          match cache_table_columns z2 with
          | .error e => .error e
          | .ok z3 => add_columns rest z3

/-- self.commit() as invoked by the sink paths below: the underlying
    Connection.commit succeeds at once against this database model, so the
    retrying wrapper Zendesk.commit (modelled above with its counters)
    performs exactly one commit attempt and returns. -/
def commit_once (z : ZState) : ZState :=
  { z with db := { z.db with log := z.db.log ++ [.commitTx] } }

/-- Python set.add on the id cache (zp.py:352): append when absent. -/
def cacheAdd (cache : List PyVal) (id : PyVal) : List PyVal :=
  if cache.contains id then cache else cache ++ [id]

/-- Zendesk.append_obj (src/zdbcon/zp.py:325-356).  In source order: read
    obj_dict[id]; build the type list; fetch the table ids (creating the
    table on a 42S02 that reaches get_table_ids); if the id is present and
    force is not set, return False; ensure all columns exist; build the
    insert statement; re-fetch the table ids and switch to an update
    statement when the id is present there; add the id to the cache
    (AttributeError when the cache is still None); execute; commit; return
    True.  The membership test against a None cache raises TypeError. -/
def append_obj (m : TypeMapping) (obj : List (String × PyVal))
    (recache force : Bool) (z : ZState) : Except PyErr (Bool × ZState) :=
  match (obj.find? (fun p => p.1 == "id")).map Prod.snd with
  | Option.none => .error .keyError
  | some id =>
    let tl := type_list m obj
    match get_table_ids recache tl z with
    | .error e => .error e
    | .ok (ids?, z1) =>
      match ids? with
      | Option.none => .error .typeError
      | some ids =>
        if ids.contains id && !force then .ok (false, z1)
        else
          match add_columns tl z1 with
          | .error e => .error e
          | .ok z2 =>
            match get_table_ids recache [] z2 with
            | .error e => .error e
            | .ok (ids2?, z3) =>
              match ids2? with
              | Option.none => .error .typeError
              | some ids2 =>
                let q := if ids2.contains id then
                    SQLStmt.updateRow id (tl.map (fun t => t.column))
                  else SQLStmt.insertRow id (tl.map (fun t => t.column))
                match z3.id_cache with
                | Option.none => .error .attributeError
                | some cache =>
                  let z4 : ZState :=
                    { z3 with id_cache := some (cacheAdd cache id) }
                  match execute (dbExec q) 10 true z4.db with
                  | (.ok _, db1) =>
                    .ok (true, commit_once { z4 with db := db1 })
                  | (.error e, _) => .error (.dbError e)

end Zendesk

namespace ZenTicket

/-- The column loop of ZenTicket.append_ticket (src/zdbcon/ticket.py:143-147):
    for every (column, type) entry of ftypes, add the column when it is not
    yet known and refresh the column cache — Zendesk.add_columns with
    (name, type) pairs instead of descriptors. -/
def add_ftype_columns (ft : List (String × String)) (z : Zendesk.ZState) :
    Except PyErr Zendesk.ZState :=
  match ft with
  | [] => .ok z
  | (c, ty) :: rest =>
    match Zendesk.has_column c z with
    | .error e => .error e
    | .ok (b, z1) =>
      if b then add_ftype_columns rest z1
      else
        match Zendesk.add_column c ty z1 with
        | .error e => .error e
        | .ok z2 =>
          match Zendesk.cache_table_columns z2 with
          | .error e => .error e
          | .ok z3 => add_ftype_columns rest z3

/-- ZenTicket.append_ticket (src/zdbcon/ticket.py:105-160).  The pandas
    data-frame and Zenpy field-translation steps (ticket_to_table,
    ticket_field_types, lines 131-141) are external collaborators; their
    outputs enter here as the parameters ticket_list (the non-None
    descriptors) and ftypes (the column-to-SQL-type mapping).  In source
    order: read status and id from the ticket; table_ids =
    get_table_ids(recache=False); when the status is closed AND the id is in
    table_ids (the and is lazy, and a None table_ids raises TypeError on the
    membership test) return False unless force_update; ensure the ftypes
    columns exist; update when the id is in table_ids, insert otherwise;
    commit; add the id to the cache (AttributeError when it is None);
    return True. -/
def append_ticket (status : String) (ticket_id : PyVal)
    (ticket_list : List Descriptor) (ftypes : List (String × String))
    (force_update : Bool) (z : Zendesk.ZState) :
    Except PyErr (Bool × Zendesk.ZState) :=
  match Zendesk.get_table_ids false [] z with
  | .error e => .error e
  | .ok (tids?, z1) =>
    let closedCheck : Except PyErr Bool :=
      if status = "closed" then
        match tids? with
        | Option.none => .error .typeError
        | some table_ids => .ok (table_ids.contains ticket_id)
      else .ok false
    match closedCheck with
    | .error e => .error e
    | .ok closedAndPresent =>
      if closedAndPresent && !force_update then .ok (false, z1)
      else
        match add_ftype_columns ftypes z1 with
        | .error e => .error e
        | .ok z2 =>
          match tids? with
          | Option.none => .error .typeError
          | some table_ids =>
            let q := if table_ids.contains ticket_id then
                SQLStmt.updateRow ticket_id
                  (ticket_list.map (fun t => t.column))
              else SQLStmt.insertRow ticket_id
                  (ticket_list.map (fun t => t.column))
            match Zendesk.execute (dbExec q) 10 true z2.db with
            | (.error e, _) => .error (.dbError e)
            | (.ok _, db1) =>
              let z3 := Zendesk.commit_once { z2 with db := db1 }
              match z3.id_cache with
              | Option.none => .error .attributeError
              | some cache =>
                .ok (true,
                  { z3 with id_cache := some (Zendesk.cacheAdd cache ticket_id) })

end ZenTicket

namespace ZenChat

/-- One row of the comprehension in ZenChat.format_chat_history
    (src/zdbcon/chat.py:20-29): the dict literal with ticket_id, the
    synthesized id (the f-string interpolates str(event[id]) and the index),
    the history entry itself as content, and the event id as chat_id.
    Reading event[id] raises KeyError when absent. -/
def chatRow (ekvs : List (PyVal × PyVal)) (ticket_id : Int) (idx : Nat)
    (history : PyVal) : Except PyErr PyVal :=
  match PyVal.dGet ekvs (.str "id") with
  | Option.none => .error .keyError
  | some eid =>
    .ok (.dict [(.str "ticket_id", .int ticket_id),
      (.str "id", .str (eid.pyStr ++ "-" ++ toString idx)),
      (.str "content", history),
      (.str "chat_id", eid)])

/-- The enumerate-filter comprehension of format_chat_history, one history
    entry at a time carrying its enumerate index: entries whose type is not
    the ChatMessage string are skipped but still advance the index; reading
    history[type] raises KeyError when absent and TypeError on a non-dict
    entry. -/
def chatLoop (ekvs : List (PyVal × PyVal)) (ticket_id : Int) :
    Nat → List PyVal → Except PyErr (List PyVal)
  | _, [] => .ok []
  | idx, h :: rest =>
    match h with
    | .dict hkvs =>
      match PyVal.dGet hkvs (.str "type") with
      | Option.none => .error .keyError
      | some t =>
        if t = .str "ChatMessage" then
          match chatRow ekvs ticket_id idx h with
          | .error e => .error e
          | .ok row =>
            match chatLoop ekvs ticket_id (idx + 1) rest with
            | .error e => .error e
            | .ok rows => .ok (row :: rows)
        else chatLoop ekvs ticket_id (idx + 1) rest
    | _ => .error .typeError

/-- ZenChat.format_chat_history (src/zdbcon/chat.py:12-29): iterates
    enumerate(event[value][history]) and emits one row per ChatMessage
    entry.  The containers are reached by plain indexing, so a missing key
    raises KeyError and indexing into a non-container raises TypeError. -/
def format_chat_history (event : PyVal) (ticket_id : Int) :
    Except PyErr (List PyVal) :=
  match event with
  | .dict ekvs =>
    match PyVal.dGet ekvs (.str "value") with
    | Option.none => .error .keyError
    | some v =>
      match v with
      | .dict vkvs =>
        match PyVal.dGet vkvs (.str "history") with
        | Option.none => .error .keyError
        | some (.list hs) => chatLoop ekvs ticket_id 0 hs
        | some _ => .error .typeError
      | _ => .error .typeError
  | _ => .error .typeError

end ZenChat

/-! ## Helper lemmas and log observations -/

/-- Row-writing statements (INSERT / UPDATE). -/
def isWrite : SQLStmt → Bool
  | .insertRow _ _ => true
  | .updateRow _ _ => true
  | _ => false

/-- Create-table statements. -/
def isCreateTable : SQLStmt → Bool
  | .createTable _ => true
  | _ => false

/-- The physical row writes in a statement log. -/
def writeLog (l : List SQLStmt) : List SQLStmt := l.filter isWrite

/-- Commit statements. -/
def isCommit : SQLStmt → Bool
  | .commitTx => true
  | _ => false

/-- The number of transaction commits in a statement log. -/
def commitCount (l : List SQLStmt) : Nat :=
  (l.filter isCommit).length

theorem writeLog_append (a b : List SQLStmt) :
    writeLog (a ++ b) = writeLog a ++ writeLog b := by
  simp [writeLog, List.filter_append]

theorem commitCount_append (a b : List SQLStmt) :
    commitCount (a ++ b) = commitCount a + commitCount b := by
  simp [commitCount, List.filter_append]

namespace Zendesk

/-- When the very first attempt succeeds, execute returns its result and
    state, whatever the retry budget is. -/
theorem execute_first_ok {σ ρ : Type} (db : σ → Except DBErr ρ × σ)
    (t : Nat) (first : Bool) (s s1 : σ) (r : ρ) (h : db s = (.ok r, s1)) :
    execute db t first s = (.ok (some r), s1) := by
  cases t with
  | zero => simp [execute, h]
  | succ n => simp [execute, h]

theorem dbExec_selectIds_ok (db : DBState) (h : db.tableExists = true) :
    dbExec .selectIds db
      = (.ok (.ids db.rowIds), { db with log := db.log ++ [.selectIds] }) := by
  simp [dbExec, h]

theorem get_table_ids_recache (tl : List Descriptor) (z : ZState)
    (h : z.db.tableExists = true) :
    get_table_ids true tl z
      = .ok (some z.db.rowIds,
          { z with db := { z.db with log := z.db.log ++ [.selectIds] },
                   id_cache := some z.db.rowIds }) := by
  rw [get_table_ids]
  rw [execute_first_ok (dbExec .selectIds) 10 true z.db _ _
    (dbExec_selectIds_ok z.db h)]
  simp [fetchIds]

theorem get_table_ids_cached (tl : List Descriptor) (z : ZState)
    (ids : List PyVal) (h : z.id_cache = some ids) :
    get_table_ids false tl z = .ok (some ids, z) := by
  rw [get_table_ids]
  simp [h]

theorem add_columns_present (tl : List Descriptor) (z : ZState)
    (hall : ∀ t ∈ tl, z.table_columns.contains t.column = true)
    (hne : z.table_columns ≠ []) :
    add_columns tl z = .ok z := by
  induction tl with
  | nil => rfl
  | cons t rest ih =>
    rw [add_columns, has_column, get_table_columns]
    rw [if_neg (by simpa [List.length_eq_zero] using hne)]
    simp only
    rw [if_pos (hall t (by simp))]
    exact ih (fun d hd => hall d (by simp [hd]))

theorem dbExec_insert_ok (db : DBState) (id : PyVal) (cs : List String)
    (h : db.tableExists = true)
    (hc : cs.all (fun c => (db.cols.map Prod.fst).contains c) = true) :
    dbExec (.insertRow id cs) db
      = (.ok .unit, { db with rowIds := db.rowIds ++ [id],
                              log := db.log ++ [.insertRow id cs] }) := by
  simp only [dbExec, h, if_true]
  rw [if_pos hc]

theorem dbExec_update_ok (db : DBState) (id : PyVal) (cs : List String)
    (h : db.tableExists = true)
    (hc : cs.all (fun c => (db.cols.map Prod.fst).contains c) = true) :
    dbExec (.updateRow id cs) db
      = (.ok .unit, { db with log := db.log ++ [.updateRow id cs] }) := by
  simp only [dbExec, h, if_true]
  rw [if_pos hc]

end Zendesk

/-! ## C1 — the resilient executor retries but never reconnects -/

/-- C1 counterexample.  The claim states that with N = 1 transient failure
    followed by a success (N < max_attempts = 10), execute returns the
    successful result after performing exactly N = 1 full reconnects.  On the
    code, the successful result is returned but the reconnect counter stays
    at 0: Zendesk.execute retries without ever calling Zendesk.reconnect. -/
theorem execute_retry_reconnect_cex :
    Zendesk.execute (Zendesk.failFirst 1 "RES" "08S01") 10 true ⟨0, 0, 0⟩
      = (.ok (some "RES"), ⟨2, 0, 0⟩) ∧ (0 : Nat) ≠ 1 :=
  ⟨rfl, by decide⟩

/-- When every attempt from state a on succeeds, one call suffices. -/
theorem execute_failFirst_done (failures : Nat) (res : String) (dberr : DBErr)
    (t : Nat) (first : Bool) (a c r : Nat) (h : failures ≤ a) :
    Zendesk.execute (Zendesk.failFirst failures res dberr) t first ⟨a, c, r⟩
      = (.ok (some res), ⟨a + 1, c, r⟩) := by
  apply Zendesk.execute_first_ok
  simp [Zendesk.failFirst, Nat.not_lt.mpr h]

/-- C1, amended: for every N and every retry budget tries with N < tries,
    against a database whose first N executions of the statement fail and
    whose next execution succeeds, Zendesk.execute returns the successful
    result after N + 1 attempts and performs exactly zero reconnects — the
    executor retries without any reconnect (only Zendesk.commit reconnects;
    the commit and reconnect counters pass through untouched). -/
theorem execute_retry_zero_reconnects (failures tries : Nat) (res : String)
    (dberr : DBErr) (c r : Nat) (h : failures < tries) :
    Zendesk.execute (Zendesk.failFirst failures res dberr) tries true ⟨0, c, r⟩
      = (.ok (some res), ⟨failures + 1, c, r⟩) := by
  suffices H : ∀ t a first, a < failures → failures ≤ a + t →
      Zendesk.execute (Zendesk.failFirst failures res dberr) t first ⟨a, c, r⟩
        = (.ok (some res), ⟨failures + 1, c, r⟩) by
    rcases Nat.eq_zero_or_pos failures with h0 | h0
    · subst h0
      simpa using execute_failFirst_done 0 res dberr tries true 0 c r le_rfl
    · exact H tries 0 true h0 (by omega)
  intro t
  induction t with
  | zero => intro a first h1 h2; omega
  | succ n ih =>
    intro a first h1 h2
    rw [Zendesk.execute]
    have hdb : Zendesk.failFirst failures res dberr ⟨a, c, r⟩
        = (.error dberr, ⟨a + 1, c, r⟩) := by
      simp [Zendesk.failFirst, h1]
    rw [hdb]
    simp only
    rcases Nat.lt_or_ge (a + 1) failures with h3 | h3
    · rw [ih (a + 1) false h3 (by omega)]
    · rw [execute_failFirst_done failures res dberr n false (a + 1) c r h3]
      have : a + 1 = failures := by omega
      rw [this]

/-- C1 witness: two failures then success within a budget of ten attempts —
    the result is returned and the reconnect count is unchanged (zero). -/
theorem execute_retry_zero_reconnects_witness :
    (2 < 10) ∧
    Zendesk.execute (Zendesk.failFirst 2 "RES" "08S01") 10 true ⟨0, 5, 0⟩
      = (.ok (some "RES"), ⟨3, 5, 0⟩) :=
  ⟨by decide, execute_retry_zero_reconnects 2 10 "RES" "08S01" 5 0 (by decide)⟩

/-! ## C2 — commit decrements its counter but never consults it -/

/-- C2: Zendesk.commit is not bounded by its tries counter.  First conjunct:
    the counter has no influence at all on the behaviour — any two values of
    tries produce identical runs, for every commit/reconnect oracle.  Second
    conjunct: against a database whose commit always raises (with reconnects
    succeeding), the recursion performs one commit attempt and one reconnect
    per unit of fuel and never returns, for every fuel — so with the default
    tries = 10 it does not stop after 11 attempts.  Third conjunct: the run
    at tries = 10 observed for 12 steps has made 12 commit attempts and 12
    reconnects and is still going, where the claim promises it gives up
    after at most 11 attempts. -/
theorem commit_ignores_tries :
    (∀ (co ro : Nat → Bool) (fuel : Nat) (t1 t2 : Int) (s : Zendesk.ConnState),
      Zendesk.commit co ro fuel t1 s = Zendesk.commit co ro fuel t2 s)
    ∧ (∀ (fuel : Nat) (tries : Int) (s : Zendesk.ConnState),
      Zendesk.commit (fun _ => false) (fun _ => true) fuel tries s
        = ({ s with commits := s.commits + fuel,
                    reconnects := s.reconnects + fuel }, false))
    ∧ Zendesk.commit (fun _ => false) (fun _ => true) 12 10 ⟨0, 0, 0⟩
        = (⟨0, 12, 12⟩, false) := by
  refine ⟨?_, ?_, rfl⟩
  · intro co ro fuel
    induction fuel with
    | zero => intro t1 t2 s; rfl
    | succ n ih =>
      intro t1 t2 s
      rw [Zendesk.commit, Zendesk.commit]
      by_cases h : co s.commits
      · simp [h]
      · simp only [Bool.not_eq_true] at h
        simp only [h]
        by_cases h2 : ro s.reconnects
        · simp only [h2, if_true]
          exact ih _ _ _
        · simp [h2]
  · intro fuel
    induction fuel with
    | zero => intro tries s; rfl
    | succ n ih =>
      intro tries s
      rw [Zendesk.commit]
      simp only [Bool.false_eq_true, if_false, if_pos rfl]
      rw [ih]
      have e1 : s.commits + 1 + n = s.commits + (n + 1) := by omega
      have e2 : s.reconnects + 1 + n = s.reconnects + (n + 1) := by omega
      simp [Zendesk.reconnect, e1, e2]

/-! ## C6 — map_type checks direct before except -/

/-- C6 counterexample.  Column 25195420522772 is listed in the except section
    of the documented example mapping (override: int) and is not a date
    field, and the observed type int64 has a direct entry (bigint).  The
    claim says the except override outranks the direct mapping, so map_type
    should return int; the code checks direct first and returns bigint. -/
theorem map_type_direct_first_cex :
    Zendesk.map_type Zendesk.exampleMapping "25195420522772" "int64" = "bigint"
    ∧ Zendesk.exampleMapping.exceptLookup "25195420522772" = some "int"
    ∧ Zendesk.exampleMapping.directLookup "int64" = some "bigint"
    ∧ ¬("25195420522772" ∈ Zendesk.exampleMapping.date_map
        ∨ String.takeRight "25195420522772" 3 = "_at")
    ∧ Zendesk.map_type Zendesk.exampleMapping "25195420522772" "int64"
        ≠ "int" := by
  refine ⟨by decide, by decide, by decide, by decide, by decide⟩

/-- C6, amended: the except override applies to a non-date field only when
    the observed type name has no direct entry; the precedence the code
    implements is date match, then direct type-based match, then exception
    override, then passthrough. -/
theorem map_type_except_after_direct (m : TypeMapping)
    (column pd_type t : String)
    (hdate : ¬(column ∈ m.date_map ∨ column.takeRight 3 = "_at"))
    (hdirect : m.directLookup pd_type = Option.none)
    (hexc : m.exceptLookup column = some t) :
    Zendesk.map_type m column pd_type = t := by
  rw [Zendesk.map_type, if_neg hdate, hdirect, hexc]

/-- C6 witness: a field with an except override whose observed type has no
    direct entry does get the override. -/
theorem map_type_except_after_direct_witness :
    (¬("25195420522772" ∈ Zendesk.exampleMapping.date_map
        ∨ String.takeRight "25195420522772" 3 = "_at"))
    ∧ Zendesk.exampleMapping.directLookup "uint8" = Option.none
    ∧ Zendesk.exampleMapping.exceptLookup "25195420522772" = some "int"
    ∧ Zendesk.map_type Zendesk.exampleMapping "25195420522772" "uint8"
        = "int" :=
  ⟨by decide, by decide, by decide,
   map_type_except_after_direct Zendesk.exampleMapping "25195420522772"
     "uint8" "int" (by decide) (by decide) (by decide)⟩

/-! ## C8 — the SQL-literal encoding of parse_value -/

/-- C8: the five branches of Zendesk.parse_value, in the precedence the code
    gives them.  None and the empty string encode as NULL before anything
    else; date/datetime-typed values encode as the quoted formatted date, or
    NULL when the date oracle (dateutil) fails, without raising; bit-typed
    booleans encode as the literals 0/1; a type name containing int yields
    the raw unquoted value; every remaining type yields a quoted N-string
    with each single quote replaced by a double quote. -/
theorem parse_value_encoding (fmt : Zendesk.DateOracle) (c t : String)
    (v : PyVal) (b : Bool) :
    ((v = .none ∨ v = .str "") →
      Zendesk.parse_value fmt c v t = .ok (c, "NULL"))
    ∧ ((t = "datetime" ∨ t = "date") → ¬(v = .none ∨ v = .str "") →
      Zendesk.parse_value fmt c v t
        = .ok (c, match fmt v with
            | some d => Zendesk.quoteStr ++ d ++ Zendesk.quoteStr
            | Option.none => "NULL"))
    ∧ (Zendesk.parse_value fmt c (.bool b) "bit"
        = .ok (c, if b then "1" else "0"))
    ∧ (strContains t "int" = true → ¬(v = .none ∨ v = .str "") →
      Zendesk.parse_value fmt c v t = .ok (c, v.pyStr))
    ∧ (strContains t "int" = false → ¬(t = "datetime" ∨ t = "date") →
      t ≠ "bit" → ¬(v = .none ∨ v = .str "") →
      Zendesk.parse_value fmt c v t
        = .ok (c, "N" ++ Zendesk.quoteStr ++ Zendesk.replaceQuotes v.pyStr
            ++ Zendesk.quoteStr)) := by
  refine ⟨?_, ?_, ?_, ?_, ?_⟩
  · intro h
    rw [Zendesk.parse_value, if_pos h]
  · intro ht hv
    rw [Zendesk.parse_value, if_neg hv, if_pos ht]
    cases fmt v <;> rfl
  · have hv : ¬((PyVal.bool b) = .none ∨ (PyVal.bool b) = .str "") := by
      rintro (h | h) <;> exact PyVal.noConfusion h
    rw [Zendesk.parse_value, if_neg hv, if_neg (by decide)]
    cases b <;> rfl
  · intro ht hv
    have h1 : t ≠ "datetime" := by rintro rfl; exact absurd ht (by decide)
    have h2 : t ≠ "date" := by rintro rfl; exact absurd ht (by decide)
    have h3 : t ≠ "bit" := by rintro rfl; exact absurd ht (by decide)
    rw [Zendesk.parse_value, if_neg hv,
      if_neg (by rintro (h | h) <;> [exact h1 h; exact h2 h]),
      if_neg h3, if_pos ht]
  · intro ht hd hb hv
    rw [Zendesk.parse_value, if_neg hv, if_neg hd, if_neg hb, ht]
    rfl

/-- C8 witness: every branch of parse_value exercised at concrete
    descriptors, including a failing date parse (NULL, no exception) and a
    string value whose single quote is replaced by a double quote. -/
theorem parse_value_encoding_witness :
    (Zendesk.parse_value (fun _ => Option.none) "a" .none "varchar(max)"
      = .ok ("a", "NULL"))
    ∧ (Zendesk.parse_value (fun _ => some "2023-01-01 10:00:00") "created_at"
        (.str "2023-01-01T10:00:00Z") "datetime"
      = .ok ("created_at",
          Zendesk.quoteStr ++ "2023-01-01 10:00:00" ++ Zendesk.quoteStr))
    ∧ (Zendesk.parse_value (fun _ => Option.none) "due_at"
        (.str "not a date") "datetime" = .ok ("due_at", "NULL"))
    ∧ (Zendesk.parse_value (fun _ => Option.none) "b" (.bool true) "bit"
      = .ok ("b", "1"))
    ∧ (Zendesk.parse_value (fun _ => Option.none) "n" (.int 7) "bigint"
      = .ok ("n", "7"))
    ∧ (Zendesk.parse_value (fun _ => Option.none) "s"
        (.str (String.mk [Char.ofNat 120, Zendesk.quoteChar, Char.ofNat 121]))
        "varchar(max)"
      = .ok ("s", "N" ++ Zendesk.quoteStr
          ++ String.mk [Char.ofNat 120, Zendesk.doubleQuoteChar, Char.ofNat 121]
          ++ Zendesk.quoteStr)) :=
  ⟨(parse_value_encoding (fun _ => Option.none) "a" "varchar(max)"
      .none true).1 (Or.inl rfl),
   ((parse_value_encoding (fun _ => some "2023-01-01 10:00:00") "created_at"
      "datetime" (.str "2023-01-01T10:00:00Z") true).2.1 (Or.inl rfl)
      (by decide)).trans (by rfl),
   ((parse_value_encoding (fun _ => Option.none) "due_at" "datetime"
      (.str "not a date") true).2.1 (Or.inl rfl)
      (by decide)).trans (by rfl),
   (parse_value_encoding (fun _ => Option.none) "b" "bit"
      .none true).2.2.1,
   (parse_value_encoding (fun _ => Option.none) "n" "bigint"
      (.int 7) true).2.2.2.1 (by decide) (by decide),
   ((parse_value_encoding (fun _ => Option.none) "s" "varchar(max)"
      (.str (String.mk [Char.ofNat 120, Zendesk.quoteChar, Char.ofNat 121]))
      true).2.2.2.2 (by decide) (by decide) (by decide)
      (by decide)).trans (by rfl)⟩

/-! ## C3 — the missing table is never created -/

/-- A freshly constructed connector state against a database in which the
    destination table does not exist: empty statement log, id cache None,
    empty column cache (zp.py:76-79). -/
def freshZ : Zendesk.ZState := ⟨⟨false, [], [], []⟩, Option.none, []⟩

/-- The flat row used to exercise the missing-table path. -/
def c3row : List (String × PyVal) := [("id", .int 1), ("status", .str "open")]

/-- C3: appending a flat row while the destination table does not exist does
    NOT create the table.  First conjunct: the run returns True, yet the
    table still does not exist, no row was stored, and no CREATE TABLE
    statement was ever issued.  Second and third conjuncts show why the
    recovery the claim describes is unreachable: the underlying select does
    raise the table-missing error 42S02, but the retrying Zendesk.execute
    swallows it and returns None, so the except-branch of get_table_ids that
    matches 42S02 and calls create_table (zp.py:401-404) never sees it. -/
theorem append_obj_missing_table_no_create :
    ((Zendesk.append_obj Zendesk.exampleMapping c3row true false freshZ).map
        (fun r => (r.1, r.2.db.tableExists, r.2.db.rowIds,
          (r.2.db.log.filter isCreateTable).length))
      = .ok (true, false, [], 0))
    ∧ (Zendesk.execute (dbExec .selectIds) 10 true freshZ.db).1
        = .ok Option.none
    ∧ (dbExec .selectIds freshZ.db).1 = .error "42S02" :=
  ⟨rfl, rfl, rfl⟩

/-! ## C4 — append twice performs one physical write -/

namespace Zendesk

/-- get_table_ids with a forced recache against a live table, with the
    resulting state spelled out field by field. -/
theorem get_table_ids_recache_flat (tl : List Descriptor) (z : ZState)
    (h : z.db.tableExists = true) :
    get_table_ids true tl z
      = .ok (some z.db.rowIds,
          ⟨⟨z.db.tableExists, z.db.rowIds, z.db.cols,
            z.db.log ++ [.selectIds]⟩,
           some z.db.rowIds, z.table_columns⟩) :=
  get_table_ids_recache tl z h

/-- A first-try-successful INSERT through the retrying execute, with the
    resulting connection state spelled out field by field. -/
theorem execute_insert_flat (db : DBState) (id : PyVal) (cs : List String)
    (h : db.tableExists = true)
    (hc : ∀ c ∈ cs, c ∈ db.cols.map Prod.fst) :
    execute (dbExec (.insertRow id cs)) 10 true db
      = (.ok (some .unit),
         ⟨db.tableExists, db.rowIds ++ [id], db.cols,
          db.log ++ [.insertRow id cs]⟩) :=
  execute_first_ok _ 10 true db _ _ (dbExec_insert_ok db id cs h
    (by rw [List.all_eq_true]; intro c hcm; simpa using hc c hcm))

end Zendesk

/-- C4: with a live table (the row's columns already known to both the
    database and the column cache) and a flat row whose id is not yet stored,
    two successive append_obj calls with force = False perform exactly one
    physical write: the first call issues one INSERT plus one commit and
    returns True; the second call sees the id in the freshly recached
    identifier set and returns False as a no-op — no further write, no
    further commit, rows unchanged (its only statement is the SELECT that
    recaches the ids). -/
theorem append_obj_twice_one_write (m : TypeMapping)
    (obj : List (String × PyVal)) (id : PyVal) (z : Zendesk.ZState)
    (hid : (obj.find? (fun p => p.1 == "id")).map Prod.snd = some id)
    (htab : z.db.tableExists = true)
    (hnew : z.db.rowIds.contains id = false)
    (hsync : z.table_columns = z.db.cols.map Prod.fst)
    (hcols : ∀ t ∈ Zendesk.type_list m obj,
      z.table_columns.contains t.column = true)
    (hcne : z.table_columns ≠ []) :
    ∃ z1 z2,
      Zendesk.append_obj m obj true false z = .ok (true, z1) ∧
      writeLog z1.db.log = writeLog z.db.log
        ++ [.insertRow id ((Zendesk.type_list m obj).map (fun t => t.column))] ∧
      z1.db.rowIds = z.db.rowIds ++ [id] ∧
      commitCount z1.db.log = commitCount z.db.log + 1 ∧
      Zendesk.append_obj m obj true false z1 = .ok (false, z2) ∧
      writeLog z2.db.log = writeLog z1.db.log ∧
      z2.db.rowIds = z1.db.rowIds := by
  have hnew2 : ¬(id ∈ z.db.rowIds) := by simpa using hnew
  have hallz : ∀ c ∈ (Zendesk.type_list m obj).map (fun t => t.column),
      c ∈ z.db.cols.map Prod.fst := by
    intro c hc
    obtain ⟨t, ht, rfl⟩ := List.mem_map.mp hc
    have := hcols t ht
    rw [hsync] at this
    simpa using this
  have haddc : Zendesk.add_columns (Zendesk.type_list m obj)
      ⟨⟨true, z.db.rowIds, z.db.cols, z.db.log ++ [.selectIds]⟩,
       some z.db.rowIds, z.table_columns⟩
      = .ok ⟨⟨true, z.db.rowIds, z.db.cols,
          z.db.log ++ [.selectIds]⟩, some z.db.rowIds, z.table_columns⟩ :=
    Zendesk.add_columns_present _ _ hcols hcne
  have hcont2 : id ∈ z.db.rowIds ++ [id] := by simp
  refine ⟨⟨⟨true, z.db.rowIds ++ [id], z.db.cols,
      z.db.log ++ [.selectIds] ++ [.selectIds]
        ++ [.insertRow id ((Zendesk.type_list m obj).map (fun t => t.column))]
        ++ [.commitTx]⟩,
      some (z.db.rowIds ++ [id]), z.table_columns⟩,
    ⟨⟨true, z.db.rowIds ++ [id], z.db.cols,
      z.db.log ++ [.selectIds] ++ [.selectIds]
        ++ [.insertRow id ((Zendesk.type_list m obj).map (fun t => t.column))]
        ++ [.commitTx] ++ [.selectIds]⟩,
      some (z.db.rowIds ++ [id]), z.table_columns⟩,
    ?_, ?_, rfl, ?_, ?_, ?_, rfl⟩
  · rw [Zendesk.append_obj, hid]
    simp [Zendesk.get_table_ids_recache_flat, Zendesk.cacheAdd,
      Zendesk.commit_once, haddc, htab, hnew2]
    rw [Zendesk.execute_insert_flat
      (DBState.mk true z.db.rowIds z.db.cols
        (z.db.log ++ [SQLStmt.selectIds, SQLStmt.selectIds])) id
      ((Zendesk.type_list m obj).map (fun t => t.column)) rfl hallz]
    simp
  · simp [writeLog, List.filter_append, isWrite]
  · simp [commitCount, List.filter_append, isCommit]
  · rw [Zendesk.append_obj, hid]
    simp [Zendesk.get_table_ids_recache_flat, htab, hcont2]
  · simp [writeLog, List.filter_append, isWrite]

/-- The live sink state used by the C4 and C5 witnesses: table present with
    columns id and status, no rows yet, caches aligned. -/
def liveZ : Zendesk.ZState :=
  ⟨⟨true, [], [("id", "bigint"), ("status", "varchar(max)")], []⟩,
   some [], ["id", "status"]⟩

/-- C4 witness: the double append of a concrete row against liveZ. -/
theorem append_obj_twice_one_write_witness :
    ((([("id", PyVal.int 1), ("status", PyVal.str "open")].find?
        (fun p => p.1 == "id")).map Prod.snd = some (PyVal.int 1))
    ∧ liveZ.db.tableExists = true
    ∧ liveZ.db.rowIds.contains (PyVal.int 1) = false
    ∧ liveZ.table_columns = liveZ.db.cols.map Prod.fst
    ∧ (∀ t ∈ Zendesk.type_list Zendesk.exampleMapping
          [("id", PyVal.int 1), ("status", PyVal.str "open")],
        liveZ.table_columns.contains t.column = true)
    ∧ liveZ.table_columns ≠ [])
    ∧ (∃ z1 z2,
      Zendesk.append_obj Zendesk.exampleMapping
          [("id", PyVal.int 1), ("status", PyVal.str "open")] true false liveZ
        = .ok (true, z1) ∧
      writeLog z1.db.log = writeLog liveZ.db.log
        ++ [.insertRow (PyVal.int 1)
            ((Zendesk.type_list Zendesk.exampleMapping
              [("id", PyVal.int 1), ("status", PyVal.str "open")]).map
              (fun t => t.column))] ∧
      z1.db.rowIds = liveZ.db.rowIds ++ [PyVal.int 1] ∧
      commitCount z1.db.log = commitCount liveZ.db.log + 1 ∧
      Zendesk.append_obj Zendesk.exampleMapping
          [("id", PyVal.int 1), ("status", PyVal.str "open")] true false z1
        = .ok (false, z2) ∧
      writeLog z2.db.log = writeLog z1.db.log ∧
      z2.db.rowIds = z1.db.rowIds) :=
  ⟨⟨by decide, rfl, by decide, by decide, by decide, by decide⟩,
   append_obj_twice_one_write Zendesk.exampleMapping
     [("id", PyVal.int 1), ("status", PyVal.str "open")] (PyVal.int 1) liveZ
     (by decide) rfl (by decide) (by decide) (by decide) (by decide)⟩

/-! ## C5 — the three-state status policy of append_ticket -/

namespace Zendesk

/-- A first-try-successful UPDATE through the retrying execute, with the
    resulting connection state spelled out field by field. -/
theorem execute_update_flat (db : DBState) (id : PyVal) (cs : List String)
    (h : db.tableExists = true)
    (hc : ∀ c ∈ cs, c ∈ db.cols.map Prod.fst) :
    execute (dbExec (.updateRow id cs)) 10 true db
      = (.ok (some .unit),
         ⟨db.tableExists, db.rowIds, db.cols,
          db.log ++ [.updateRow id cs]⟩) :=
  execute_first_ok _ 10 true db _ _ (dbExec_update_ok db id cs h
    (by rw [List.all_eq_true]; intro c hcm; simpa using hc c hcm))

end Zendesk

namespace ZenTicket

/-- The append_ticket column loop is a no-op when every column of ftypes is
    already in a non-empty column cache. -/
theorem add_ftype_columns_present (ft : List (String × String))
    (z : Zendesk.ZState)
    (hall : ∀ p ∈ ft, z.table_columns.contains p.1 = true)
    (hne : z.table_columns ≠ []) :
    add_ftype_columns ft z = .ok z := by
  induction ft with
  | nil => rfl
  | cons p rest ih =>
    rw [add_ftype_columns, Zendesk.has_column, Zendesk.get_table_columns]
    rw [if_neg (by simpa [List.length_eq_zero] using hne)]
    simp only
    rw [if_pos (hall p (by simp))]
    exact ih (fun d hd => hall d (by simp [hd]))

end ZenTicket

/-- C5: the three-state status policy of ZenTicket.append_ticket, against a
    primed identifier cache (table_ids is read from the cache, recache=False)
    and a live table whose columns cover the ticket row.  (a) A closed ticket
    whose id is already in table_ids is skipped — append_ticket returns False
    and the state is untouched — unless force_update is set.  (b) A ticket
    whose id is not in table_ids is inserted, whatever its status and whether
    or not force_update is set.  (c) A non-closed ticket whose id is in
    table_ids always takes the UPDATE path (one updateRow write, rows
    unchanged), whatever force_update is. -/
theorem append_ticket_status_policy (status : String) (tid : PyVal)
    (ticket_list : List Descriptor) (ftypes : List (String × String))
    (force_update : Bool) (ids : List PyVal) (z : Zendesk.ZState)
    (hcache : z.id_cache = some ids)
    (htab : z.db.tableExists = true)
    (hft : ∀ p ∈ ftypes, z.table_columns.contains p.1 = true)
    (hcne : z.table_columns ≠ [])
    (hw : ∀ c ∈ ticket_list.map (fun t => t.column),
      c ∈ z.db.cols.map Prod.fst) :
    (status = "closed" → ids.contains tid = true → force_update = false →
      ZenTicket.append_ticket status tid ticket_list ftypes force_update z
        = .ok (false, z))
    ∧ (ids.contains tid = false →
      ZenTicket.append_ticket status tid ticket_list ftypes force_update z
        = .ok (true,
          ⟨⟨z.db.tableExists, z.db.rowIds ++ [tid], z.db.cols,
            z.db.log ++ [.insertRow tid (ticket_list.map (fun t => t.column))]
              ++ [.commitTx]⟩,
           some (ids ++ [tid]), z.table_columns⟩))
    ∧ (status ≠ "closed" → ids.contains tid = true →
      ZenTicket.append_ticket status tid ticket_list ftypes force_update z
        = .ok (true,
          ⟨⟨z.db.tableExists, z.db.rowIds, z.db.cols,
            z.db.log ++ [.updateRow tid (ticket_list.map (fun t => t.column))]
              ++ [.commitTx]⟩,
           some ids, z.table_columns⟩)) := by
  have haddf := ZenTicket.add_ftype_columns_present ftypes z hft hcne
  refine ⟨?_, ?_, ?_⟩
  · intro hst hin hforce
    subst hst hforce
    have hmem : tid ∈ ids := by simpa using hin
    rw [ZenTicket.append_ticket, Zendesk.get_table_ids_cached [] z ids hcache]
    simp [hmem]
  · intro hnotin
    have hmem : ¬(tid ∈ ids) := by simpa using hnotin
    rw [ZenTicket.append_ticket, Zendesk.get_table_ids_cached [] z ids hcache]
    by_cases hst : status = "closed" <;>
      simp [hst, haddf, hmem, hcache, Zendesk.commit_once, Zendesk.cacheAdd,
        Zendesk.execute_insert_flat z.db tid
          (ticket_list.map (fun t => t.column)) htab hw]
  · intro hst hin
    have hmem : tid ∈ ids := by simpa using hin
    rw [ZenTicket.append_ticket, Zendesk.get_table_ids_cached [] z ids hcache]
    simp [hst, haddf, hmem, hcache, Zendesk.commit_once, Zendesk.cacheAdd,
      Zendesk.execute_update_flat z.db tid
        (ticket_list.map (fun t => t.column)) htab hw]

/-- A live sink state that already stores the ticket with id 5, with the
    identifier cache in sync. -/
def liveZ5 : Zendesk.ZState :=
  ⟨⟨true, [.int 5], [("id", "bigint"), ("status", "varchar(max)")], []⟩,
   some [.int 5], ["id", "status"]⟩

/-- The descriptor list of the concrete ticket row used by the C5 witness. -/
def ticketTL (n : Int) (st : String) : List Descriptor :=
  [⟨"id", .int n, "bigint"⟩, ⟨"status", .str st, "varchar(max)"⟩]

/-- The ftypes mapping of the concrete ticket row used by the C5 witness. -/
def ticketFT : List (String × String) :=
  [("id", "bigint"), ("status", "varchar(max)")]

/-- C5 witness: the three branches at concrete tickets.  A closed ticket
    already present is skipped untouched; a ticket not yet present is
    inserted even though it is closed; an open ticket already present is
    updated even without force_update. -/
theorem append_ticket_status_policy_witness :
    (ZenTicket.append_ticket "closed" (.int 5) (ticketTL 5 "closed") ticketFT
        false liveZ5 = .ok (false, liveZ5))
    ∧ (ZenTicket.append_ticket "closed" (.int 7) (ticketTL 7 "closed") ticketFT
        false liveZ
      = .ok (true,
          ⟨⟨true, [.int 7],
            [("id", "bigint"), ("status", "varchar(max)")],
            [.insertRow (.int 7) ["id", "status"], .commitTx]⟩,
           some [.int 7], ["id", "status"]⟩))
    ∧ (ZenTicket.append_ticket "open" (.int 5) (ticketTL 5 "open") ticketFT
        false liveZ5
      = .ok (true,
          ⟨⟨true, [.int 5],
            [("id", "bigint"), ("status", "varchar(max)")],
            [.updateRow (.int 5) ["id", "status"], .commitTx]⟩,
           some [.int 5], ["id", "status"]⟩)) :=
  ⟨(append_ticket_status_policy "closed" (.int 5) (ticketTL 5 "closed")
      ticketFT false [.int 5] liveZ5 rfl rfl (by decide) (by decide)
      (by decide)).1 rfl (by decide) rfl,
   (append_ticket_status_policy "closed" (.int 7) (ticketTL 7 "closed")
      ticketFT false [] liveZ rfl rfl (by decide) (by decide)
      (by decide)).2.1 (by decide),
   (append_ticket_status_policy "open" (.int 5) (ticketTL 5 "open")
      ticketFT false [.int 5] liveZ5 rfl rfl (by decide) (by decide)
      (by decide)).2.2 (by decide) (by decide)⟩

/-! ## C9 — the chat extractor emits one row per ChatMessage at its
    original history index -/

/-- The enumerate-filter loop of format_chat_history, characterized: rows are
    exactly the history entries of type ChatMessage, each paired with its
    original enumerate index (skipped entries still advance the index). -/
theorem chatLoop_filter (ekvs : List (PyVal × PyVal)) (tid : Int)
    (eid : PyVal) (tOf : PyVal → PyVal)
    (hid : PyVal.dGet ekvs (.str "id") = some eid) :
    ∀ (hs : List PyVal) (idx : Nat),
    (∀ h ∈ hs, ∃ hk, h = .dict hk
      ∧ PyVal.dGet hk (.str "type") = some (tOf h)) →
    ZenChat.chatLoop ekvs tid idx hs
      = .ok (((List.enumFrom idx hs).filter
            (fun p => tOf p.2 == PyVal.str "ChatMessage")).map
          (fun p => .dict [(.str "ticket_id", .int tid),
            (.str "id", .str (eid.pyStr ++ "-" ++ toString p.1)),
            (.str "content", p.2), (.str "chat_id", eid)])) := by
  intro hs
  induction hs with
  | nil => intro idx _; rfl
  | cons h rest ih =>
    intro idx hall
    obtain ⟨hk, hdict, htype⟩ := hall h (by simp)
    have hrest := ih (idx + 1) (fun d hd => hall d (by simp [hd]))
    subst hdict
    rw [ZenChat.chatLoop]
    simp only [htype]
    by_cases hmsg : tOf (.dict hk) = .str "ChatMessage"
    · rw [if_pos hmsg, ZenChat.chatRow, hid, hrest]
      simp [List.enumFrom, hmsg]
    · rw [if_neg hmsg, hrest]
      have : (tOf (PyVal.dict hk) == PyVal.str "ChatMessage") = false := by
        simpa using hmsg
      simp [List.enumFrom, this]

/-- C9: for a chat-started event whose payload history is a list of typed
    entries, format_chat_history emits exactly one row per entry whose type
    is ChatMessage, with id str(event id) ++ "-" ++ idx where idx is the
    entry's zero-based position in the FULL history list: filtered-out
    entries still occupy positions (enumerate runs before the filter), so
    the indices are original positions and are never renumbered. -/
theorem format_chat_history_rows (ekvs vkvs : List (PyVal × PyVal))
    (hs : List PyVal) (eid : PyVal) (tid : Int) (tOf : PyVal → PyVal)
    (hv : PyVal.dGet ekvs (.str "value") = some (.dict vkvs))
    (hh : PyVal.dGet vkvs (.str "history") = some (.list hs))
    (hid : PyVal.dGet ekvs (.str "id") = some eid)
    (ht : ∀ h ∈ hs, ∃ hk, h = .dict hk
      ∧ PyVal.dGet hk (.str "type") = some (tOf h)) :
    ZenChat.format_chat_history (.dict ekvs) tid
      = .ok ((hs.enum.filter
            (fun p => tOf p.2 == PyVal.str "ChatMessage")).map
          (fun p => .dict [(.str "ticket_id", .int tid),
            (.str "id", .str (eid.pyStr ++ "-" ++ toString p.1)),
            (.str "content", p.2), (.str "chat_id", eid)])) := by
  rw [ZenChat.format_chat_history, hv]
  simp only
  rw [hh]
  exact chatLoop_filter ekvs tid eid tOf hid hs 0 ht

/-- The concrete chat-started event of the specification example: event id
    42, history = one ChatMessage entry followed by one Typing entry. -/
def chatMsgEntry : PyVal :=
  .dict [(.str "type", .str "ChatMessage"), (.str "msg", .str "hi")]

/-- The Typing entry of the specification example. -/
def chatTypingEntry : PyVal := .dict [(.str "type", .str "Typing")]

/-- The event dictionary of the specification example. -/
def chatEvent : List (PyVal × PyVal) :=
  [(.str "id", .int 42),
   (.str "value", .dict [(.str "history",
      .list [chatMsgEntry, chatTypingEntry])])]

/-- The type field of a history entry, as a total function (used to
    instantiate the tOf parameter of the C9 theorem). -/
def entryType : PyVal → PyVal
  | .dict hk => (PyVal.dGet hk (.str "type")).getD .none
  | _ => .none

/-- C9 witness: the specification example — ticket 9, event id 42, history
    [ChatMessage, Typing] — yields exactly one row, with id 42-0 (the Typing
    entry is dropped; the index is the original position 0). -/
theorem format_chat_history_rows_witness :
    ZenChat.format_chat_history (.dict chatEvent) 9
      = .ok [.dict [(.str "ticket_id", .int 9), (.str "id", .str "42-0"),
          (.str "content", chatMsgEntry), (.str "chat_id", .int 42)]] :=
  format_chat_history_rows chatEvent
    [(.str "history", .list [chatMsgEntry, chatTypingEntry])]
    [chatMsgEntry, chatTypingEntry] (.int 42) 9 entryType
    rfl rfl rfl
    (by
      intro h hm
      rcases List.mem_cons.mp hm with rfl | hm2
      · exact ⟨_, rfl, rfl⟩
      · rcases List.mem_cons.mp hm2 with rfl | hm3
        · exact ⟨_, rfl, rfl⟩
        · cases hm3)

/-! ## C10 — the ZDBC flattener copy cannot flatten nested dictionaries -/

namespace ZDBC

/-- A record one of whose values is a dictionary can never flatten
    successfully through the ZDBC copy: the comprehension maps every value
    through ZDBC.flatten_dict_list, whose dict branch raises NameError, and
    the first exception raised propagates. -/
theorem flattenPairs_no_ok (r : List (PyVal × PyVal)) (key : KeyArg)
    (hdict : ∃ p ∈ r, ∃ mkvs, p.2 = PyVal.dict mkvs) :
    ∀ out, flattenPairs r key ≠ .ok out := by
  induction r with
  | nil => obtain ⟨p, hp, _⟩ := hdict; cases hp
  | cons q rest ih =>
    intro out
    obtain ⟨k, v⟩ := q
    obtain ⟨p, hp, mkvs, hm⟩ := hdict
    rw [flattenPairs]
    rcases List.mem_cons.mp hp with rfl | hrest
    · simp only at hm
      subst hm
      rw [flatten_dict_list]
      intro hcontra
      cases hcontra
    · cases hv : flatten_dict_list v key with
      | error e => intro hcontra; cases hcontra
      | ok v2 =>
        cases hrec : flattenPairs rest key with
        | error e => intro hcontra; cases hcontra
        | ok rest2 => exact absurd hrec (ih ⟨p, hrest, mkvs, hm⟩ rest2)

end ZDBC

/-- C10: the zdbc.py copy of the flattener is broken on nested dictionaries.
    First conjunct: the nested-dictionary branch of ZDBC.flatten_dict_list
    raises NameError for every dictionary — the branch calls the bare name
    flatten_dict, which zdbc.py never defines at module scope.  Second
    conjunct: consequently ZDBC.flatten_dict cannot succeed on any record one
    of whose fields holds a mapping.  Third conjunct: ZDBC.dict_from_audit
    always hands the flattener a record whose metadata field is the audit's
    nested metadata mapping, so it cannot succeed on any audit whose
    dictionary carries a metadata mapping. -/
theorem zdbc_flatten_nameerror :
    (∀ (kvs : List (PyVal × PyVal)) (key : KeyArg),
      ZDBC.flatten_dict_list (.dict kvs) key = .error .nameError)
    ∧ (∀ (r : List (PyVal × PyVal)) (key : KeyArg),
      (∃ p ∈ r, ∃ mkvs, p.2 = PyVal.dict mkvs) →
      ∀ out, ZDBC.flatten_dict r key ≠ .ok out)
    ∧ (∀ (d mkvs : List (PyVal × PyVal)),
      PyVal.dGet (ZDBC.popDefault d (.str "events")) (.str "metadata")
        = some (.dict mkvs) →
      ∀ out, ZDBC.dict_from_audit d ≠ .ok out) := by
  refine ⟨fun kvs key => rfl, fun r key h => ZDBC.flattenPairs_no_ok r key h, ?_⟩
  intro d mkvs hget out
  have hfind : ∃ p, (ZDBC.popDefault d (.str "events")).find?
      (fun p => p.1 == .str "metadata") = some p ∧ p.2 = PyVal.dict mkvs := by
    rw [PyVal.dGet] at hget
    cases hf : (ZDBC.popDefault d (.str "events")).find?
        (fun p => p.1 == .str "metadata") with
    | none => rw [hf] at hget; cases hget
    | some p =>
      rw [hf] at hget
      exact ⟨p, rfl, by simpa using hget⟩
  obtain ⟨p, hfind, hpv⟩ := hfind
  have hmem : p ∈ ZDBC.popDefault d (.str "events") :=
    List.mem_of_find?_eq_some hfind
  have hpred : (p.1 == PyVal.str "metadata") = true := by
    have h2 := List.find?_some hfind
    simpa using h2
  rw [ZDBC.dict_from_audit]
  simp only [hget]
  cases hdec : PyVal.dGet mkvs (.str "decoration") with
  | none =>
    exact ZDBC.flattenPairs_no_ok _ _ ⟨p, hmem, mkvs, hpv⟩ out
  | some dec =>
    cases dec with
    | dict deckvs =>
      refine ZDBC.flattenPairs_no_ok _ _ ?_ out
      refine ⟨(p.1, PyVal.dict (mkvs.map (fun q =>
        if q.1 == .str "decoration"
        then (q.1, PyVal.dict (ZDBC.popDefault deckvs (.str "links")))
        else q))), ?_, _, rfl⟩
      have := List.mem_map_of_mem (fun q =>
        if q.1 == PyVal.str "metadata"
        then (q.1, PyVal.dict (mkvs.map (fun q2 =>
          if q2.1 == PyVal.str "decoration"
          then (q2.1, PyVal.dict (ZDBC.popDefault deckvs (.str "links")))
          else q2)))
        else q) hmem
      simpa [hpred] using this
    | none => intro hc; cases hc
    | bool b => intro hc; cases hc
    | int n => intro hc; cases hc
    | str s => intro hc; cases hc
    | list xs => intro hc; cases hc

/-- C10 witness: a concrete audit-like record with a nested metadata mapping
    cannot be flattened by the ZDBC copy (here instantiated at the empty
    candidate output), and dict_from_audit fails on it as well. -/
theorem zdbc_flatten_nameerror_witness :
    (ZDBC.flatten_dict
        [(.str "id", .int 3), (.str "metadata", .dict [(.str "k", .int 1)])]
        (.multi ["id", "type"]) ≠ .ok [])
    ∧ (ZDBC.dict_from_audit
        [(.str "id", .int 3), (.str "metadata", .dict [(.str "k", .int 1)])]
        ≠ .ok [])
    ∧ ZDBC.flatten_dict_list (.dict [(.str "k", .int 1)]) (.single "id")
        = .error .nameError :=
  ⟨zdbc_flatten_nameerror.2.1
      [(.str "id", .int 3), (.str "metadata", .dict [(.str "k", .int 1)])]
      (.multi ["id", "type"])
      ⟨(.str "metadata", .dict [(.str "k", .int 1)]), by decide, _, rfl⟩ [],
   zdbc_flatten_nameerror.2.2
      [(.str "id", .int 3), (.str "metadata", .dict [(.str "k", .int 1)])]
      [(.str "k", .int 1)] (by decide) [],
   zdbc_flatten_nameerror.1 [(.str "k", .int 1)] (.single "id")⟩

/-! ## C7 — flattening a list of mappings keys it by discriminator values -/

theorem dHas_append (a b : List (PyVal × PyVal)) (k : PyVal) :
    PyVal.dHas (a ++ b) k = (PyVal.dHas a k || PyVal.dHas b k) := by
  simp [PyVal.dHas, List.any_append]

/-- dHas only looks at the keys. -/
theorem dHas_eq_of_keys (l1 l2 : List (PyVal × PyVal)) (k : PyVal)
    (h : l1.map Prod.fst = l2.map Prod.fst) :
    PyVal.dHas l1 k = PyVal.dHas l2 k := by
  have e : ∀ l : List (PyVal × PyVal),
      PyVal.dHas l k = (l.map Prod.fst).any (fun x => x == k) := by
    intro l
    induction l with
    | nil => rfl
    | cons p rest ih =>
      simp only [PyVal.dHas, List.any_cons, List.map_cons] at ih ⊢
      rw [ih]
  rw [e, e, h]

/-- choose_key only looks at the keys. -/
theorem choose_key_eq_of_keys (key : KeyArg) (l1 l2 : List (PyVal × PyVal))
    (h : l1.map Prod.fst = l2.map Prod.fst) :
    choose_key key l1 = choose_key key l2 := by
  cases key with
  | single k => rfl
  | multi ks =>
    simp only [choose_key]
    congr 1
    funext k
    exact dHas_eq_of_keys l1 l2 (.str k) h

theorem dGet_some_dHas (l : List (PyVal × PyVal)) (k v : PyVal)
    (h : PyVal.dGet l k = some v) : PyVal.dHas l k = true := by
  rw [PyVal.dGet] at h
  cases hf : l.find? (fun p => p.1 == k) with
  | none => rw [hf] at h; cases h
  | some p =>
    have hmem := List.mem_of_find?_eq_some hf
    have hpred : (p.1 == k) = true := by
      have h2 := List.find?_some hf
      simpa using h2
    rw [PyVal.dHas, List.any_eq_true]
    exact ⟨p, hmem, hpred⟩

theorem dHas_filter_self (l : List (PyVal × PyVal)) (k : PyVal) :
    PyVal.dHas (l.filter (fun q => !(q.1 == k))) k = false := by
  induction l with
  | nil => rfl
  | cons q rest ih =>
    by_cases h : q.1 == k
    · simp only [List.filter_cons, h, Bool.not_true, if_false]
      exact ih
    · have h2 : (q.1 == k) = false := by simpa using h
      simp only [List.filter_cons, h2, Bool.not_false, if_true]
      simp only [PyVal.dHas, List.any_cons, h2, Bool.false_or] at ih ⊢
      exact ih

/-- The flattener preserves the key list of a dictionary: the comprehension
    of flatten_dict only maps the values. -/
theorem flattenPairs_keys (kvs out : List (PyVal × PyVal)) (key : KeyArg)
    (h : flattenPairs kvs key = .ok out) :
    out.map Prod.fst = kvs.map Prod.fst := by
  induction kvs generalizing out with
  | nil =>
    rw [flattenPairs] at h
    cases h
    rfl
  | cons p rest ih =>
    obtain ⟨k, v⟩ := p
    rw [flattenPairs] at h
    cases hv : flatten_dict_list v key with
    | error e => rw [hv] at h; cases h
    | ok v2 =>
      rw [hv] at h
      cases hrec : flattenPairs rest key with
      | error e => rw [hrec] at h; cases h
      | ok rest2 =>
        rw [hrec] at h
        cases h
        simp [ih rest2 hrec]

/-- dGet commutes with the value-mapping comprehension of flatten_dict. -/
theorem flattenPairs_dGet (r fr : List (PyVal × PyVal)) (key : KeyArg)
    (f v : PyVal) (hr : flattenPairs r key = .ok fr)
    (hget : PyVal.dGet r f = some v) :
    ∃ v2, PyVal.dGet fr f = some v2 ∧ flatten_dict_list v key = .ok v2 := by
  induction r generalizing fr with
  | nil => rw [PyVal.dGet] at hget; cases hget
  | cons p rest ih =>
    obtain ⟨k, w⟩ := p
    rw [flattenPairs] at hr
    cases hw : flatten_dict_list w key with
    | error e => rw [hw] at hr; cases hr
    | ok w2 =>
      rw [hw] at hr
      cases hrec : flattenPairs rest key with
      | error e => rw [hrec] at hr; cases hr
      | ok rest2 =>
        rw [hrec] at hr
        cases hr
        by_cases hk : (k == f)
        · rw [PyVal.dGet, List.find?_cons_of_pos _ (by simpa using hk)] at hget
          cases hget
          refine ⟨w2, ?_, hw⟩
          rw [PyVal.dGet, List.find?_cons_of_pos _ (by simpa using hk)]
          rfl
        · have hk2 : (k == f) = false := by simpa using hk
          rw [PyVal.dGet, List.find?_cons_of_neg _ (by simpa using hk2)] at hget
          obtain ⟨v2, hv2, hfl2⟩ := ih rest2 hrec hget
          refine ⟨v2, ?_, hfl2⟩
          rw [PyVal.dGet, List.find?_cons_of_neg _ (by simpa using hk2)]
          exact hv2

/-- The keyed comprehension over a list of mappings, each carrying its
    discriminator (kv: underlying dictionary, ck: chosen key, dv: its value,
    fl: the flattened row): the produced pairs are exactly the discriminator
    values paired with the flattened rows, in order. -/
theorem flattenElems_map (key : KeyArg) (kv : PyVal → List (PyVal × PyVal))
    (ck : PyVal → String) (dv : PyVal → PyVal)
    (fl : PyVal → List (PyVal × PyVal)) (ds : List PyVal)
    (helem : ∀ d ∈ ds, d = .dict (kv d)
      ∧ choose_key key (kv d) = some (ck d)
      ∧ PyVal.dGet (kv d) (.str (ck d)) = some (dv d)
      ∧ flattenPairs (kv d) key = .ok (fl d)) :
    flattenElems ds key = .ok (ds.map (fun d => (dv d, .dict (fl d)))) := by
  induction ds with
  | nil => rfl
  | cons d rest ih =>
    obtain ⟨hd, hck, hgetv, hfl⟩ := helem d (by simp)
    have hrest := ih (fun d2 hd2 => helem d2 (by simp [hd2]))
    rw [List.map_cons]
    cases d with
    | dict kvs =>
      have hkv : kvs = kv (.dict kvs) := by
        have := hd
        injection this
      rw [← hkv] at hck hgetv hfl
      rw [flattenElems]
      simp only [hck, ckVal, hgetv, hfl, hrest]
    | none => simp at hd
    | bool b => simp at hd
    | int n => simp at hd
    | str s => simp at hd
    | list xs => simp at hd

/-- Building a Python dict from pairs with pairwise-distinct keys keeps the
    pairs as they are (every insertion appends). -/
theorem pyDictOf_nodup (pairs : List (PyVal × PyVal))
    (h : (pairs.map Prod.fst).Nodup) : pyDictOf pairs = pairs := by
  suffices H : ∀ (ps acc : List (PyVal × PyVal)), (ps.map Prod.fst).Nodup →
      (∀ p ∈ ps, PyVal.dHas acc p.1 = false) →
      ps.foldl (fun acc p => PyVal.dIns acc p.1 p.2) acc = acc ++ ps by
    have := H pairs [] h (fun p _ => rfl)
    simpa [pyDictOf] using this
  intro ps
  induction ps with
  | nil => intro acc _ _; simp
  | cons p rest ih =>
    intro acc hnd hacc
    rw [List.foldl_cons]
    have hins : PyVal.dIns acc p.1 p.2 = acc ++ [(p.1, p.2)] := by
      rw [PyVal.dIns, hacc p (by simp)]
      simp
    rw [hins]
    rw [List.map_cons, List.nodup_cons] at hnd
    have hrest : ∀ q ∈ rest, PyVal.dHas (acc ++ [(p.1, p.2)]) q.1 = false := by
      intro q hq
      rw [dHas_append, hacc q (by simp [hq])]
      have hne : ¬(p.1 == q.1) := by
        intro hb
        exact hnd.1 (by
          rw [List.mem_map]
          exact ⟨q, hq, by simpa using (eq_comm.mp (by simpa using hb))⟩)
      simp [PyVal.dHas]
      simpa using fun hbad => hne (by simp [hbad])
    rw [ih (acc ++ [(p.1, p.2)]) hnd.2 hrest]
    simp

/-- The pop loop over discriminator-keyed flattened rows: each row has its
    chosen key popped. -/
theorem popAll_map (key : KeyArg) (ck : PyVal → String) (dv : PyVal → PyVal)
    (fl : PyVal → List (PyVal × PyVal)) (ds : List PyVal)
    (hck : ∀ d ∈ ds, choose_key key (fl d) = some (ck d))
    (hhas : ∀ d ∈ ds, PyVal.dHas (fl d) (.str (ck d)) = true) :
    popAll key (ds.map (fun d => (dv d, .dict (fl d))))
      = .ok (ds.map (fun d => (dv d,
          PyVal.dict ((fl d).filter (fun q => !(q.1 == .str (ck d))))))) := by
  induction ds with
  | nil => rfl
  | cons d rest ih =>
    have h1 := hck d (by simp)
    have h2 := hhas d (by simp)
    have hrest := ih (fun d2 hd2 => hck d2 (by simp [hd2]))
      (fun d2 hd2 => hhas d2 (by simp [hd2]))
    rw [List.map_cons, popAll]
    simp only [h1, ckVal, PyVal.dPop, h2, if_true, hrest, List.map_cons]

/-- The list-of-mappings branch of flatten_dict_list, fully characterized:
    the result is a dictionary keyed by the discriminator values, in order,
    whose rows are the flattened elements with their chosen key popped. -/
theorem flatten_list_spec (key : KeyArg) (kv : PyVal → List (PyVal × PyVal))
    (ck : PyVal → String) (dv : PyVal → PyVal)
    (fl : PyVal → List (PyVal × PyVal)) (ds : List PyVal)
    (helem : ∀ d ∈ ds, d = .dict (kv d)
      ∧ choose_key key (kv d) = some (ck d)
      ∧ PyVal.dGet (kv d) (.str (ck d)) = some (dv d)
      ∧ flattenPairs (kv d) key = .ok (fl d))
    (hnodup : (ds.map dv).Nodup) :
    flatten_dict_list (.list ds) key
      = .ok (.dict (ds.map (fun d => (dv d,
          PyVal.dict ((fl d).filter (fun q => !(q.1 == .str (ck d)))))))) := by
  have hkeys : ∀ d ∈ ds, (fl d).map Prod.fst = (kv d).map Prod.fst :=
    fun d hd => flattenPairs_keys (kv d) (fl d) key (helem d hd).2.2.2
  have hck : ∀ d ∈ ds, choose_key key (fl d) = some (ck d) := by
    intro d hd
    rw [choose_key_eq_of_keys key (fl d) (kv d) (hkeys d hd)]
    exact (helem d hd).2.1
  have hhas : ∀ d ∈ ds, PyVal.dHas (fl d) (.str (ck d)) = true := by
    intro d hd
    rw [dHas_eq_of_keys (fl d) (kv d) _ (hkeys d hd)]
    exact dGet_some_dHas (kv d) _ _ (helem d hd).2.2.1
  have helems := flattenElems_map key kv ck dv fl ds helem
  have hdict : pyDictOf (ds.map (fun d => (dv d, .dict (fl d))))
      = ds.map (fun d => (dv d, .dict (fl d))) := by
    apply pyDictOf_nodup
    simpa [List.map_map, Function.comp] using hnodup
  have hpop := popAll_map key ck dv fl ds hck hhas
  cases ds with
  | nil => rfl
  | cons d rest =>
    obtain ⟨hd, _, _, _⟩ := helem d (by simp)
    have hwt : wrong_type d = false := by rw [hd]; rfl
    rw [flatten_dict_list, if_neg (by simp [hwt])]
    simp only [helems, hdict, hpop]

/-- C7: for every record one of whose fields holds a list of mappings, each
    carrying a discriminator key (kv: the underlying dictionary, ck: the key
    choose_key selects for it, dv: the value stored under it, fl: its
    flattened form) with pairwise-distinct discriminator values, flatten_dict
    turns that list into a dictionary whose key list is exactly the list of
    those discriminator values, and the selected discriminator key is removed
    from every resulting sub-row. -/
theorem flatten_record_discriminator (r fr : List (PyVal × PyVal))
    (key : KeyArg) (f : PyVal) (ds : List PyVal)
    (kv : PyVal → List (PyVal × PyVal)) (ck : PyVal → String)
    (dv : PyVal → PyVal) (fl : PyVal → List (PyVal × PyVal))
    (hf : PyVal.dGet r f = some (.list ds))
    (hr : flatten_dict r key = .ok fr)
    (helem : ∀ d ∈ ds, d = .dict (kv d)
      ∧ choose_key key (kv d) = some (ck d)
      ∧ PyVal.dGet (kv d) (.str (ck d)) = some (dv d)
      ∧ flattenPairs (kv d) key = .ok (fl d))
    (hnodup : (ds.map dv).Nodup) :
    ∃ out, PyVal.dGet fr f = some (.dict out)
      ∧ out.map Prod.fst = ds.map dv
      ∧ ∀ p ∈ out, ∃ row, p.2 = PyVal.dict row
          ∧ ∀ d ∈ ds, dv d = p.1 →
              PyVal.dHas row (.str (ck d)) = false := by
  have hr2 : flattenPairs r key = .ok fr := hr
  obtain ⟨v2, hget2, hfl2⟩ := flattenPairs_dGet r fr key f _ hr2 hf
  have hspec := flatten_list_spec key kv ck dv fl ds helem hnodup
  rw [hspec] at hfl2
  cases hfl2
  refine ⟨_, hget2, ?_, ?_⟩
  · simp [List.map_map, Function.comp]
  · intro p hp
    obtain ⟨d, hd, rfl⟩ := List.mem_map.mp hp
    refine ⟨(fl d).filter (fun q => !(q.1 == .str (ck d))), rfl, ?_⟩
    intro d2 hd2 hdv
    have hdd : d2 = d :=
      List.inj_on_of_nodup_map hnodup hd2 hd hdv
    rw [hdd]
    exact dHas_filter_self (fl d) (.str (ck d))

/-- The underlying dictionary of a mapping element (C7 witness helper). -/
def c7kv : PyVal → List (PyVal × PyVal)
  | .dict kvs => kvs
  | _ => []

/-- The discriminator value stored under id (C7 witness helper). -/
def c7dv (d : PyVal) : PyVal := (PyVal.dGet (c7kv d) (.str "id")).getD .none

/-- The two mapping elements of the C7 witness record. -/
def c7d1 : PyVal := .dict [(.str "id", .int 1), (.str "a", .int 5)]

def c7d2 : PyVal := .dict [(.str "id", .int 2), (.str "b", .int 6)]

/-- The C7 witness record: one field holding a list of two mappings with
    distinct discriminator values, one scalar field. -/
def c7rec : List (PyVal × PyVal) :=
  [(.str "watchers", .list [c7d1, c7d2]), (.str "x", .int 9)]

/-- C7 witness: flattening the concrete record keys the watchers list by the
    id values 1 and 2 and removes id from both sub-rows. -/
theorem flatten_record_discriminator_witness :
    (flatten_dict c7rec (.single "id")
      = .ok [(.str "watchers",
          .dict [(.int 1, .dict [(.str "a", .int 5)]),
                 (.int 2, .dict [(.str "b", .int 6)])]),
         (.str "x", .int 9)])
    ∧ (∃ out, PyVal.dGet
          [(.str "watchers",
            .dict [(.int 1, .dict [(.str "a", .int 5)]),
                   (.int 2, .dict [(.str "b", .int 6)])]),
           (.str "x", .int 9)] (.str "watchers") = some (.dict out)
        ∧ out.map Prod.fst = [c7d1, c7d2].map c7dv
        ∧ ∀ p ∈ out, ∃ row, p.2 = PyVal.dict row
            ∧ ∀ d ∈ [c7d1, c7d2], c7dv d = p.1 →
                PyVal.dHas row (.str "id") = false) :=
  ⟨rfl,
   flatten_record_discriminator c7rec
     [(.str "watchers",
       .dict [(.int 1, .dict [(.str "a", .int 5)]),
              (.int 2, .dict [(.str "b", .int 6)])]),
      (.str "x", .int 9)]
     (.single "id") (.str "watchers") [c7d1, c7d2]
     c7kv (fun _ => "id") c7dv c7kv
     rfl rfl
     (by
       intro d hm
       rcases List.mem_cons.mp hm with rfl | hm2
       · exact ⟨rfl, rfl, rfl, rfl⟩
       · rcases List.mem_cons.mp hm2 with rfl | hm3
         · exact ⟨rfl, rfl, rfl, rfl⟩
         · cases hm3)
     (by decide)⟩
